import Mathlib

/-!
Verification of libexmdbpp (grommunio), a C++ client library for the exmdb
wire protocol.  The development shallowly embeds the relevant parts of the
source:

* `src/structures.cpp`: `TaggedPropval` wire (de)serialization, the
  `Restriction` AST with its factory constructors and `serialize`, and the
  `ExmdbClient::reconnect` logic;
* `src/util.cpp`: `valueToGc` / `gcToValue` / `makeEid` / `makeEidEx`;
* `src/queries.cpp`: the high-level `ExmdbQueries` operations
  (`listFolders`, `findFolder`, `getFolderMemberList`, `setFolderMembers`,
  `getSyncData`, `resyncDevice`) modelled as request-trace producing
  computations against a response oracle.

Machine integers are modelled as `Nat` with explicit bounds / `% 2^w` where
overflow matters; byte buffers are `List Nat`; fallible operations return
`Option`.  C-strings are byte lists without the terminating NUL.
-/

namespace Exmdbpp

/-- Little-endian fixed-width integer write: `w` bytes of `v`, least
significant byte first.  (`IOBuffer::push` for `uintN_t`; the IOBuffer
primitives are modelled from the spec: all integer fields are written
little-endian with fixed width.) -/
def pushLE : Nat → Nat → List Nat
  | 0, _ => []
  | w + 1, v => v % 256 :: pushLE w (v / 256)

/-- Little-endian fixed-width integer read; fails (`Short`) on underflow.
(`IOBuffer::pop` for `uintN_t`, modelled from the spec.) -/
def popLE : Nat → List Nat → Option (Nat × List Nat)
  | 0, b => some (0, b)
  | _ + 1, [] => none
  | w + 1, x :: b =>
    match popLE w b with
    | none => none
    | some (y, r) => some (x + 256 * y, r)

/-- Read a NUL-terminated byte string, consuming the terminator
(`IOBuffer::pop<const char*>`, modelled from the spec: bytes up to and
including the next NUL). -/
def popStr : List Nat → Option (List Nat × List Nat)
  | [] => none
  | x :: b =>
    if x = 0 then some ([], b)
    else
      match popStr b with
      | none => none
      | some (s, r) => some (x :: s, r)

/-- Read exactly `n` raw bytes. (`IOBuffer::pop_raw`, modelled from the
spec.) -/
def popRaw : Nat → List Nat → Option (List Nat × List Nat)
  | 0, b => some ([], b)
  | _ + 1, [] => none
  | n + 1, x :: b =>
    match popRaw n b with
    | none => none
    | some (d, r) => some (x :: d, r)

/-- Read `n` consecutive elements with the element reader `p`. -/
def popN (p : List Nat → Option (α × List Nat)) : Nat → List Nat → Option (List α × List Nat)
  | 0, b => some ([], b)
  | n + 1, b =>
    match p b with
    | none => none
    | some (a, b₂) =>
      match popN p n b₂ with
      | none => none
      | some (l, r) => some (a :: l, r)

/-! ### PropvalType catalog

Modelled from the spec: the repository's `constants.h` is not among the
provided sources; the spec describes a closed catalog of wire type codes
(`UNSPECIFIED` plus one code per scalar and array form, the low 16 bits of a
property tag being the type code).  The numeric values are the standard MAPI
property-type codes the catalog mirrors. -/
namespace PropvalType

def UNSPECIFIED : Nat := 0x0000
def SHORT : Nat := 0x0002
def LONG : Nat := 0x0003
def FLOAT : Nat := 0x0004
def DOUBLE : Nat := 0x0005
def CURRENCY : Nat := 0x0006
def FLOATINGTIME : Nat := 0x0007
def ERROR : Nat := 0x000a
def BYTE : Nat := 0x000b
def LONGLONG : Nat := 0x0014
def STRING : Nat := 0x001e
def WSTRING : Nat := 0x001f
def FILETIME : Nat := 0x0040
def BINARY : Nat := 0x0102
def SHORT_ARRAY : Nat := 0x1002
def LONG_ARRAY : Nat := 0x1003
def FLOAT_ARRAY : Nat := 0x1004
def DOUBLE_ARRAY : Nat := 0x1005
def CURRENCY_ARRAY : Nat := 0x1006
def FLOATINGTIME_ARRAY : Nat := 0x1007
def LONGLONG_ARRAY : Nat := 0x1014
def STRING_ARRAY : Nat := 0x101e
def WSTRING_ARRAY : Nat := 0x101f
def BINARY_ARRAY : Nat := 0x1102

/-- Type code of a tag: its low 16 bits (`PropvalType::tagType`). -/
def tagType (tag : Nat) : Nat := tag % 65536

end PropvalType

/-! ### TaggedPropval and its wire (de)serialization

`TaggedPropval` stores a C union keyed by `type`
(`src/structures.cpp`).  The union is modelled as an inductive of the value
shapes; `float`/`double` members are carried as their 32/64-bit patterns,
since the wire form is exactly those bytes.  Reading a union member that was
not the one stored is modelled as failure. -/

/-- The value variants of `TaggedPropval::Value`. Strings are byte lists
without the terminating NUL; `f32`/`f64` hold IEEE bit patterns. -/
inductive PValue where
  | u8 (v : Nat)
  | u16 (v : Nat)
  | u32 (v : Nat)
  | u64 (v : Nat)
  | f32 (v : Nat)
  | f64 (v : Nat)
  | str (s : List Nat)
  | bin (d : List Nat)
  | a16 (l : List Nat)
  | a32 (l : List Nat)
  | a64 (l : List Nat)
  | af32 (l : List Nat)
  | af64 (l : List Nat)
  | astr (l : List (List Nat))
  | abin (l : List (List Nat))
deriving DecidableEq, Repr

/-- `TaggedPropval`: 32-bit tag, 16-bit type, value. -/
structure TaggedPropval where
  tag : Nat
  type : Nat
  value : PValue
deriving DecidableEq, Repr

open PropvalType

/-- Serialize a value according to `type`: the `switch(pv.type)` of
`IOBuffer::Serialize<TaggedPropval>::push` (src/structures.cpp:1177).
Unknown type codes fail (`SerializationError`); a union member read that
does not match the stored variant is modelled as failure. -/
def serializeValue (t : Nat) (v : PValue) : Option (List Nat) :=
  if t = BYTE then
    match v with | .u8 n => some (pushLE 1 n) | _ => none
  else if t = SHORT then
    match v with | .u16 n => some (pushLE 2 n) | _ => none
  else if t = LONG ∨ t = ERROR then
    match v with | .u32 n => some (pushLE 4 n) | _ => none
  else if t = LONGLONG ∨ t = CURRENCY ∨ t = FILETIME then
    match v with | .u64 n => some (pushLE 8 n) | _ => none
  else if t = FLOAT then
    match v with | .f32 n => some (pushLE 4 n) | _ => none
  else if t = DOUBLE ∨ t = FLOATINGTIME then
    match v with | .f64 n => some (pushLE 8 n) | _ => none
  else if t = STRING ∨ t = WSTRING then
    match v with | .str s => some (s ++ [0]) | _ => none
  else if t = BINARY then
    match v with | .bin d => some (pushLE 4 d.length ++ d) | _ => none
  else if t = SHORT_ARRAY then
    match v with | .a16 l => some (pushLE 4 l.length ++ (l.map (pushLE 2)).flatten) | _ => none
  else if t = LONG_ARRAY then
    match v with | .a32 l => some (pushLE 4 l.length ++ (l.map (pushLE 4)).flatten) | _ => none
  else if t = LONGLONG_ARRAY ∨ t = CURRENCY_ARRAY then
    match v with | .a64 l => some (pushLE 4 l.length ++ (l.map (pushLE 8)).flatten) | _ => none
  else if t = FLOAT_ARRAY then
    match v with | .af32 l => some (pushLE 4 l.length ++ (l.map (pushLE 4)).flatten) | _ => none
  else if t = DOUBLE_ARRAY ∨ t = FLOATINGTIME_ARRAY then
    match v with | .af64 l => some (pushLE 4 l.length ++ (l.map (pushLE 8)).flatten) | _ => none
  else if t = WSTRING_ARRAY ∨ t = STRING_ARRAY then
    match v with | .astr l => some (pushLE 4 l.length ++ (l.map (· ++ [0])).flatten) | _ => none
  else if t = BINARY_ARRAY then
    match v with
    | .abin l => some (pushLE 4 l.length ++ (l.map (fun d => pushLE 4 d.length ++ d)).flatten)
    | _ => none
  else none

/-- Serialize a `TaggedPropval`
(`IOBuffer::Serialize<TaggedPropval>::push`, src/structures.cpp:1177):
write the 32-bit tag, the explicit 16-bit type iff the tag's type code is
`UNSPECIFIED`, then the value per `type`. -/
def serializeTP (pv : TaggedPropval) : Option (List Nat) :=
  match serializeValue pv.type pv.value with
  | none => none
  | some body =>
    some (pushLE 4 pv.tag ++
      (if tagType pv.tag = UNSPECIFIED then pushLE 2 pv.type else []) ++ body)

/-- Read a binary blob: 32-bit length then that many raw bytes
(`VArray<uint8_t>` pop). -/
def popBin (b : List Nat) : Option (List Nat × List Nat) :=
  match popLE 4 b with
  | none => none
  | some (n, b₂) => popRaw n b₂

/-- Read a value of type code `t`: the `switch(type)` of
`TaggedPropval::TaggedPropval(IOBuffer&)` (src/structures.cpp:41).
Unsupported type codes fail with `SerializationError`. -/
def popValue (t : Nat) (b : List Nat) : Option (PValue × List Nat) :=
  if t = BYTE then
    match popLE 1 b with
    | none => none | some (n, r) => some (.u8 n, r)
  else if t = SHORT then
    match popLE 2 b with
    | none => none | some (n, r) => some (.u16 n, r)
  else if t = LONG ∨ t = ERROR then
    match popLE 4 b with
    | none => none | some (n, r) => some (.u32 n, r)
  else if t = LONGLONG ∨ t = CURRENCY ∨ t = FILETIME then
    match popLE 8 b with
    | none => none | some (n, r) => some (.u64 n, r)
  else if t = FLOAT then
    match popLE 4 b with
    | none => none | some (n, r) => some (.f32 n, r)
  else if t = DOUBLE ∨ t = FLOATINGTIME then
    match popLE 8 b with
    | none => none | some (n, r) => some (.f64 n, r)
  else if t = STRING ∨ t = WSTRING then
    match popStr b with
    | none => none | some (s, r) => some (.str s, r)
  else if t = BINARY then
    match popBin b with
    | none => none | some (d, r) => some (.bin d, r)
  else if t = SHORT_ARRAY then
    match popLE 4 b with
    | none => none
    | some (n, b₂) =>
      match popN (popLE 2) n b₂ with
      | none => none | some (l, r) => some (.a16 l, r)
  else if t = LONG_ARRAY then
    match popLE 4 b with
    | none => none
    | some (n, b₂) =>
      match popN (popLE 4) n b₂ with
      | none => none | some (l, r) => some (.a32 l, r)
  else if t = LONGLONG_ARRAY ∨ t = CURRENCY_ARRAY then
    match popLE 4 b with
    | none => none
    | some (n, b₂) =>
      match popN (popLE 8) n b₂ with
      | none => none | some (l, r) => some (.a64 l, r)
  else if t = FLOAT_ARRAY then
    match popLE 4 b with
    | none => none
    | some (n, b₂) =>
      match popN (popLE 4) n b₂ with
      | none => none | some (l, r) => some (.af32 l, r)
  else if t = DOUBLE_ARRAY ∨ t = FLOATINGTIME_ARRAY then
    match popLE 4 b with
    | none => none
    | some (n, b₂) =>
      match popN (popLE 8) n b₂ with
      | none => none | some (l, r) => some (.af64 l, r)
  else if t = STRING_ARRAY ∨ t = WSTRING_ARRAY then
    match popLE 4 b with
    | none => none
    | some (n, b₂) =>
      match popN popStr n b₂ with
      | none => none | some (l, r) => some (.astr l, r)
  else if t = BINARY_ARRAY then
    match popLE 4 b with
    | none => none
    | some (n, b₂) =>
      match popN popBin n b₂ with
      | none => none | some (l, r) => some (.abin l, r)
  else none

/-- Deserialize a `TaggedPropval`
(`TaggedPropval::TaggedPropval(IOBuffer&)`, src/structures.cpp:37): read the
32-bit tag; read an explicit 16-bit type when the whole tag equals
`UNSPECIFIED` (note: the source compares `tag == PropvalType::UNSPECIFIED`,
the full 32-bit tag, not the tag's type code), otherwise `type = tag & 0xFFFF`;
then read the value per `type`. -/
def deserializeTP (b : List Nat) : Option (TaggedPropval × List Nat) :=
  match popLE 4 b with
  | none => none
  | some (tag, b₂) =>
    match (if tag = UNSPECIFIED then popLE 2 b₂ else some (tag % 65536, b₂)) with
    | none => none
    | some (ty, b₃) =>
      match popValue ty b₃ with
      | none => none
      | some (v, r) => some (⟨tag, ty, v⟩, r)

/-- Agreement of a stored value with a type code: the variant is the one the
(de)serialization switch reads for that code, and all numeric payloads are in
range for their wire width. -/
def PValue.typeOK : PValue → Nat → Bool
  | .u8 n, t => t = BYTE && n < 2 ^ 8
  | .u16 n, t => t = SHORT && n < 2 ^ 16
  | .u32 n, t => (t = LONG || t = ERROR) && n < 2 ^ 32
  | .u64 n, t => (t = LONGLONG || t = CURRENCY || t = FILETIME) && n < 2 ^ 64
  | .f32 n, t => t = FLOAT && n < 2 ^ 32
  | .f64 n, t => (t = DOUBLE || t = FLOATINGTIME) && n < 2 ^ 64
  | .str s, t => (t = STRING || t = WSTRING) && s.all (fun c => c < 256 && c ≠ 0)
  | .bin d, t => t = BINARY && d.length < 2 ^ 32 && d.all (· < 256)
  | .a16 l, t => t = SHORT_ARRAY && l.length < 2 ^ 32 && l.all (· < 2 ^ 16)
  | .a32 l, t => t = LONG_ARRAY && l.length < 2 ^ 32 && l.all (· < 2 ^ 32)
  | .a64 l, t => (t = LONGLONG_ARRAY || t = CURRENCY_ARRAY) && l.length < 2 ^ 32 && l.all (· < 2 ^ 64)
  | .af32 l, t => t = FLOAT_ARRAY && l.length < 2 ^ 32 && l.all (· < 2 ^ 32)
  | .af64 l, t => (t = DOUBLE_ARRAY || t = FLOATINGTIME_ARRAY) && l.length < 2 ^ 32 && l.all (· < 2 ^ 64)
  | .astr l, t => (t = STRING_ARRAY || t = WSTRING_ARRAY) && l.length < 2 ^ 32 &&
      l.all (fun s => s.all (fun c => c < 256 && c ≠ 0))
  | .abin l, t => t = BINARY_ARRAY && l.length < 2 ^ 32 &&
      l.all (fun d => d.length < 2 ^ 32 && d.all (· < 256))

/-- Well-formedness of a `TaggedPropval` as maintained by the typed
constructors and deserialization: bounded tag and type, value agreeing with
`type`, and `type` consistent with the tag (`type = tag & 0xFFFF` unless the
tag is the bare `UNSPECIFIED` tag carrying an out-of-band type). -/
def TaggedPropval.wf (pv : TaggedPropval) : Bool :=
  pv.tag < 2 ^ 32 && pv.type < 2 ^ 16 && pv.value.typeOK pv.type &&
    (if tagType pv.tag = UNSPECIFIED then pv.tag = UNSPECIFIED
     else pv.type = tagType pv.tag)

/-! ### util.cpp: GC / EID algebra (src/util.cpp)

The functions use `htobe64`/`be64toh`; the host is modelled as little-endian
(`isBigEndian = false` for the x86-64 builds the library targets), where both
are the 64-bit byte swap.  The `valueToGc`/`gcToValue` composition is
byte-swap-cancelling and therefore host-independent. -/

/-- 64-bit byte swap. -/
def bswap64 (v : Nat) : Nat :=
  v % 256 * 2 ^ 56 + v / 2 ^ 8 % 256 * 2 ^ 48 + v / 2 ^ 16 % 256 * 2 ^ 40 +
    v / 2 ^ 24 % 256 * 2 ^ 32 + v / 2 ^ 32 % 256 * 2 ^ 24 + v / 2 ^ 40 % 256 * 2 ^ 16 +
    v / 2 ^ 48 % 256 * 2 ^ 8 + v / 2 ^ 56 % 256

/-- `valueToGc(value) = htobe64(value << 16)` (src/util.cpp:26); the shift is
on `uint64_t`, hence mod `2^64`. -/
def valueToGc (value : Nat) : Nat := bswap64 (value * 65536 % 2 ^ 64)

/-- `gcToValue(gc) = be64toh(gc) & 0xFFFFFFFFFFFF` (src/util.cpp:38). -/
def gcToValue (gc : Nat) : Nat := bswap64 gc % 2 ^ 64 &&& 0xFFFFFFFFFFFF

/-- `makeEid(replid, gc) = replid | (gc << 16)` on a little-endian host
(src/util.cpp:41). -/
def makeEid (replid gc : Nat) : Nat := replid ||| gc * 65536 % 2 ^ 64

/-- `makeEidEx(replid, value) = makeEid(replid, valueToGc(value))`
(src/util.cpp:44). -/
def makeEidEx (replid value : Nat) : Nat := makeEid replid (valueToGc value)

/-! ### Constants used by the query layer

Modelled from the spec: `constants.h` is not among the provided sources; the
tag values are the standard MAPI property tags these names denote.  No claim
depends on the numeric values, only on the constants being distinct. -/
namespace PropTag

def FOLDERID : Nat := 0x67480014
def DISPLAYNAME : Nat := 0x3001001f
def COMMENT : Nat := 0x3004001f
def CREATIONTIME : Nat := 0x30070040
def CONTAINERCLASS : Nat := 0x3613001f
def PARENTFOLDERID : Nat := 0x67490014
def MEMBERID : Nat := 0x66710014
def MEMBERNAME : Nat := 0x6672001f
def MEMBERRIGHTS : Nat := 0x66730003
def SMTPADDRESS : Nat := 0x39fe001f
def MID : Nat := 0x674a0014
def BODY : Nat := 0x1000001f
def MESSAGECLASS : Nat := 0x001a001f

end PropTag

/-- `PrivateFid::ROOT` (modelled from the spec: private root folder id). -/
def PrivateFidROOT : Nat := 0x01

/-- `PublicFid::ROOT` (modelled from the spec). -/
def PublicFidROOT : Nat := 0x01

/-- `PublicFid::IPMSUBTREE` (modelled from the spec). -/
def PublicFidIPMSUBTREE : Nat := 0x02

/-- `TableFlags::DEPTH` (modelled from the spec: depth flag for recursive
hierarchy listing). -/
def TableFlagsDEPTH : Nat := 0x04

/-! Comparison operators `Restriction::Op` (`LT=0x00`, …, in declaration
order `LT, LE, GT, GE, EQ, NE` per include/structures.h). -/
namespace Op

def LT : Nat := 0x00
def LE : Nat := 0x01
def GT : Nat := 0x02
def GE : Nat := 0x03
def EQ : Nat := 0x04
def NE : Nat := 0x05

end Op

/-- Typed constructor `TaggedPropval(uint32_t tag, const std::string&)`
restricted to its successful case (`type = tag & 0xFFFF`, which the call
sites guarantee to be `STRING`/`WSTRING`). -/
def TaggedPropval.ofStr (tag : Nat) (s : List Nat) : TaggedPropval :=
  ⟨tag, tagType tag, .str s⟩

/-- Typed constructor `TaggedPropval(uint32_t tag, uint64_t)` restricted to
its successful case. -/
def TaggedPropval.ofU64 (tag : Nat) (v : Nat) : TaggedPropval :=
  ⟨tag, tagType tag, .u64 v⟩

/-- Typed constructor `TaggedPropval(uint32_t tag, uint32_t)` restricted to
its successful case. -/
def TaggedPropval.ofU32 (tag : Nat) (v : Nat) : TaggedPropval :=
  ⟨tag, tagType tag, .u32 v⟩

/-! ### Restriction AST (src/structures.cpp:844-1121)

The `std::variant` is modelled as an inductive; the `iXNULL` alternative is
the `xnull` constructor.  `RComment` stores `res` as an owning pointer that
the constructor sets to the moved-from restriction exactly when that
restriction is the NULL restriction, and to `nullptr` otherwise
(src/structures.cpp:853). -/

inductive Restriction where
  | rAnd (elements : List Restriction)
  | rOr (elements : List Restriction)
  | rNot (res : Restriction)
  | rContent (fuzzyLevel proptag : Nat) (propval : TaggedPropval)
  | rProp (op proptag : Nat) (propval : TaggedPropval)
  | rPropComp (op proptag1 proptag2 : Nat)
  | rBitMask (all : Bool) (proptag mask : Nat)
  | rSize (op proptag size : Nat)
  | rExist (proptag : Nat)
  | rSubObj (subobject : Nat) (res : Restriction)
  | rComment (propvals : List TaggedPropval) (res : Option Restriction)
  | rCount (count : Nat) (subres : Restriction)
  | xnull

namespace Restriction

/-- `Restriction::operator bool` is `res.index() != iXNULL`; this is its
negation, used by the `RComment` constructor's `index() == iXNULL` test. -/
def isNull : Restriction → Bool
  | .xnull => true
  | _ => false

/-- Factory `Restriction::AND` (src/structures.cpp:873). -/
def AND (ress : List Restriction) : Restriction := .rAnd ress

/-- Factory `Restriction::OR` (src/structures.cpp:885). -/
def OR (ress : List Restriction) : Restriction := .rOr ress

/-- Factory `Restriction::NOT` (src/structures.cpp:897). -/
def NOT (res : Restriction) : Restriction := .rNot res

/-- Factory `Restriction::CONTENT`; the `RContent` constructor substitutes
the propval's tag when `proptag == 0` (src/structures.cpp:846). -/
def CONTENT (fuzzyLevel proptag : Nat) (propval : TaggedPropval) : Restriction :=
  .rContent fuzzyLevel (if proptag ≠ 0 then proptag else propval.tag) propval

/-- Factory `Restriction::PROPERTY`; same `proptag == 0` substitution
(src/structures.cpp:847). -/
def PROPERTY (op proptag : Nat) (propval : TaggedPropval) : Restriction :=
  .rProp op (if proptag ≠ 0 then proptag else propval.tag) propval

/-- Factory `Restriction::COMMENT`: the `RComment` constructor stores the
sub-restriction pointer iff the argument is the NULL restriction
(`res.res.index() == size_t(Type::iXNULL) ? new Restriction(std::move(res))
: nullptr`, src/structures.cpp:853). -/
def COMMENT (propvals : List TaggedPropval) (res : Restriction) : Restriction :=
  .rComment propvals (if res.isNull then some res else none)

/-- Factory `Restriction::COUNT` (src/structures.cpp:1031). -/
def COUNT (count : Nat) (subres : Restriction) : Restriction := .rCount count subres

/-- Factory `Restriction::XNULL` (src/structures.cpp:1042). -/
def XNULL : Restriction := .xnull

end Restriction

/-- Serialize each propval of a COMMENT restriction in order. -/
def serializeTPList : List TaggedPropval → Option (List Nat)
  | [] => some []
  | pv :: rest =>
    match serializeTP pv, serializeTPList rest with
    | some b, some bs => some (b ++ bs)
    | _, _ => none

mutual

/-- `Restriction::serialize` (src/structures.cpp:1050): `NULL` produces no
bytes; otherwise a `u8` type code followed by the variant payload. -/
def serializeR : Restriction → Option (List Nat)
  | .xnull => some []
  | .rAnd l => serializeRChain 0x00 l
  | .rOr l => serializeRChain 0x01 l
  | .rNot r =>
    match serializeR r with
    | none => none
    | some b => some (0x02 :: b)
  | .rContent fl pt pv =>
    match serializeTP pv with
    | none => none
    | some b => some (0x03 :: (pushLE 4 fl ++ pushLE 4 pt ++ b))
  | .rProp op pt pv =>
    match serializeTP pv with
    | none => none
    | some b => some (0x04 :: (pushLE 1 op ++ pushLE 4 pt ++ b))
  | .rPropComp op pt1 pt2 =>
    some (0x05 :: (pushLE 1 op ++ pushLE 4 pt1 ++ pushLE 4 pt2))
  | .rBitMask all pt mask =>
    some (0x06 :: (pushLE 1 (if all then 0 else 1) ++ pushLE 4 pt ++ pushLE 4 mask))
  | .rSize op pt sz =>
    some (0x07 :: (pushLE 1 op ++ pushLE 4 pt ++ pushLE 4 sz))
  | .rExist pt => some (0x08 :: pushLE 4 pt)
  | .rSubObj so r =>
    match serializeR r with
    | none => none
    | some b => some (0x09 :: (pushLE 4 so ++ b))
  | .rComment pvs res =>
    if pvs.length = 0 ∨ pvs.length > 255 then none
    else
      match serializeTPList pvs with
      | none => none
      | some pb =>
        match res with
        | some r =>
          match serializeR r with
          | none => none
          | some rb => some (0x0a :: (pushLE 1 pvs.length ++ pb ++ pushLE 1 1 ++ rb))
        | none => some (0x0a :: (pushLE 1 pvs.length ++ pb ++ pushLE 1 0))
  | .rCount n r =>
    match serializeR r with
    | none => none
    | some b => some (0x0b :: (pushLE 4 n ++ b))

/-- `AND`/`OR` chain payload: `u32` count then each child's serialization;
fails when the count exceeds `uint32` range. -/
def serializeRChain (code : Nat) (l : List Restriction) : Option (List Nat) :=
  if l.length ≥ 2 ^ 32 then none
  else
    match serializeRList l with
    | none => none
    | some b => some (code :: (pushLE 4 l.length ++ b))

/-- Serialize a list of sub-restrictions in order. -/
def serializeRList : List Restriction → Option (List Nat)
  | [] => some []
  | r :: rs =>
    match serializeR r, serializeRList rs with
    | some b, some bs => some (b ++ bs)
    | _, _ => none

end

/-! ### Request/response trace model for the query layer

`ExmdbQueries` methods are multi-request operations.  They are modelled as
computations that append each request they send to a trace and take the
matching response from an oracle list (`pending`), one entry per send: `none`
models a send that throws (connection or protocol error), `some r` a
successful response.  Exceptions propagate: a failed send aborts the rest of
the computation, keeping the trace produced so far — there is no try/catch
anywhere in src/queries.cpp. -/

/-- `PermissionData` (include/structures.h): operation flags plus propvals. -/
structure PermissionData where
  flags : Nat
  propvals : List TaggedPropval
deriving DecidableEq, Repr

/-- `PermissionData::ADD_ROW`. -/
def ADD_ROW : Nat := 0x01

/-- `PermissionData::MODIFY_ROW`. -/
def MODIFY_ROW : Nat := 0x02

/-- `PermissionData::REMOVE_ROW`. -/
def REMOVE_ROW : Nat := 0x04

/-- The requests issued by the modelled `ExmdbQueries` operations, with the
arguments of their `write` calls (requests.cpp is exercised only through
these argument tuples). -/
inductive Req where
  | loadHierarchyTable (homedir : List Nat) (folderId : Nat) (username : List Nat)
      (tableFlags : Nat) (res : Restriction)
  | loadContentTable (homedir : List Nat) (cpid folderId : Nat) (username : List Nat)
      (tableFlags : Nat) (res : Restriction)
  | loadPermissionTable (homedir : List Nat) (folderId tableFlags : Nat)
  | queryTable (homedir username : List Nat) (cpid tableId : Nat)
      (proptags : List Nat) (startPos rowNeeded : Nat)
  | unloadTable (homedir : List Nat) (tableId : Nat)
  | getFolderByName (homedir : List Nat) (parentId : Nat) (name : List Nat)
  | getMessageProperties (homedir username : List Nat) (cpid messageId : Nat)
      (proptags : List Nat)
  | deleteMessages (homedir : List Nat) (accountId cpid : Nat) (username : List Nat)
      (folderId : Nat) (messageIds : List Nat) (hard : Bool)
  | updateFolderPermission (homedir : List Nat) (folderId : Nat) (freebusy : Bool)
      (permissions : List PermissionData)

/-- The typed responses the modelled operations consume. -/
inductive Resp where
  | table (tableId rowCount : Nat)
  | entries (rows : List (List TaggedPropval))
  | ok
  | folder (folderId : Nat)
  | propvals (props : List TaggedPropval)
  | deleted (partialFlag : Bool)

/-- Oracle and trace state for a query-layer run. -/
structure QSt where
  pending : List (Option Resp)
  trace : List Req

/-- Trace computation: result (`none` = an exception escaped) plus final
state. -/
def QM (α : Type) : Type := QSt → Option α × QSt

instance : Monad QM where
  pure a := fun s => (some a, s)
  bind p f := fun s =>
    match p s with
    | (none, s₂) => (none, s₂)
    | (some a, s₂) => f a s₂

/-- `ExmdbClient::send`: record the request, consume the next oracle entry;
`none` models a send that throws. -/
def sendQ (r : Req) : QM Resp := fun s =>
  match s.pending with
  | [] => (none, { s with trace := s.trace ++ [r] })
  | e :: rest => (e, { pending := rest, trace := s.trace ++ [r] })

/-- Parse a `Load…Table` response (`tableId`, `rowCount`); a response of any
other shape fails the typed response construction. -/
def asTable : Resp → QM (Nat × Nat) := fun r s =>
  match r with
  | .table t c => (some (t, c), s)
  | _ => (none, s)

/-- Parse a `QueryTable` response (the row entries). -/
def asEntries : Resp → QM (List (List TaggedPropval)) := fun r s =>
  match r with
  | .entries rows => (some rows, s)
  | _ => (none, s)

/-- Parse a `GetFolderByName` response (the folder id). -/
def asFolder : Resp → QM Nat := fun r s =>
  match r with
  | .folder f => (some f, s)
  | _ => (none, s)

/-- Parse a `GetMessageProperties` response (the propvals). -/
def asPropvals : Resp → QM (List TaggedPropval) := fun r s =>
  match r with
  | .propvals l => (some l, s)
  | _ => (none, s)

/-- Parse a `DeleteMessages` response (the `partial` flag). -/
def asDeleted : Resp → QM Bool := fun r s =>
  match r with
  | .deleted p => (some p, s)
  | _ => (none, s)

/-- Send a request whose response parses as a table handle. -/
def sendTable (r : Req) : QM (Nat × Nat) := do
  let x ← sendQ r
  asTable x

/-- Send a request whose response parses as row entries. -/
def sendEntries (r : Req) : QM (List (List TaggedPropval)) := do
  let x ← sendQ r
  asEntries x

/-- Send a request with an empty (ignored) response body. -/
def sendEmpty (r : Req) : QM Unit := do
  let _ ← sendQ r
  pure ()

/-- Union member read `tp.value.u64`; reading a member other than the stored
one is modelled as 0. -/
def PValue.asU64 : PValue → Nat
  | .u64 v => v
  | _ => 0

/-- Union member read `tp.value.u32`. -/
def PValue.asU32 : PValue → Nat
  | .u32 v => v
  | _ => 0

/-- Union member read `tp.value.str`. -/
def PValue.asStr : PValue → List Nat
  | .str s => s
  | _ => []

/-- `ExmdbQueries::listFolders` (src/queries.cpp:196): load the hierarchy
table, compute the effective limit as
`offset || limit || rowCount < limit ? limit : rowCount`, query, unload. -/
def listFolders (homedir : List Nat) (parent : Nat) (recursive : Bool)
    (proptags : List Nat) (offset limit : Nat) (restriction : Restriction) :
    QM (List (List TaggedPropval)) := do
  let lht ← sendTable (.loadHierarchyTable homedir parent []
    (if recursive then TableFlagsDEPTH else 0) restriction)
  let limit := if offset ≠ 0 ∨ limit ≠ 0 ∨ lht.2 < limit then limit else lht.2
  let qt ← sendEntries (.queryTable homedir [] 0 lht.1 proptags offset limit)
  sendEmpty (.unloadTable homedir lht.1)
  pure qt

/-- `ExmdbQueries::findFolder` (src/queries.cpp:153): default the parent to
the private root, build a CONTENT restriction on DISPLAYNAME, then load the
hierarchy table, query all rows, unload. -/
def findFolder (homedir name : List Nat) (parent : Nat) (recursive : Bool)
    (fuzzyLevel : Nat) (proptags : List Nat) : QM (List (List TaggedPropval)) := do
  let parent := if parent ≠ 0 then parent else makeEidEx 1 PrivateFidROOT
  let res := Restriction.CONTENT fuzzyLevel 0 (.ofStr PropTag.DISPLAYNAME name)
  let lht ← sendTable (.loadHierarchyTable homedir parent []
    (if recursive then TableFlagsDEPTH else 0) res)
  let qt ← sendEntries (.queryTable homedir [] 0 lht.1 proptags 0 lht.2)
  sendEmpty (.unloadTable homedir lht.1)
  pure qt

/-- The proptag array of `getFolderMemberList` (src/queries.cpp:277). -/
def memberProptags : List Nat :=
  [PropTag.MEMBERID, PropTag.SMTPADDRESS, PropTag.MEMBERNAME, PropTag.MEMBERRIGHTS]

/-- `ExmdbQueries::getFolderMemberList` (src/queries.cpp:274): load the
permission table, query member columns, unload. -/
def getFolderMemberList (homedir : List Nat) (folderId : Nat) :
    QM (List (List TaggedPropval)) := do
  let lpt ← sendTable (.loadPermissionTable homedir folderId 0)
  let qt ← sendEntries (.queryTable homedir [] 0 lpt.1 memberProptags 0 lpt.2)
  sendEmpty (.unloadTable homedir lpt.1)
  pure qt

/-- `FolderMemberList::Member` (include/queries.h). -/
structure Member where
  name : List Nat := []
  mail : List Nat := []
  id : Nat := 0
  rights : Nat := 0
deriving DecidableEq, Repr

/-- `FolderMemberList::Member::special` (src/queries.cpp:136). -/
def Member.special (m : Member) : Bool :=
  m.id = 0 || m.id = 0xFFFFFFFFFFFFFFFF

/-- One row of the `FolderMemberList` constructor's conversion loop
(src/queries.cpp:97-119). -/
def memberFromRow (row : List TaggedPropval) : Member :=
  row.foldl
    (fun m tp =>
      if tp.tag = PropTag.MEMBERID then { m with id := tp.value.asU64 }
      else if tp.tag = PropTag.MEMBERNAME then { m with name := tp.value.asStr }
      else if tp.tag = PropTag.MEMBERRIGHTS then { m with rights := tp.value.asU32 }
      else if tp.tag = PropTag.SMTPADDRESS then { m with mail := tp.value.asStr }
      else m)
    {}

/-- `FolderMemberList` of a queried table. -/
def membersFromTable (table : List (List TaggedPropval)) : List Member :=
  table.map memberFromRow

/-- Bitwise complement `~rights` on `uint32_t`. -/
def notMask32 (rights : Nat) : Nat := 0xFFFFFFFF ^^^ rights

/-- First-occurrence deduplication, with the already-seen elements
accumulated. -/
def dedupAux : List (List Nat) → List (List Nat) → List (List Nat)
  | _, [] => []
  | seen, x :: xs =>
    if x ∈ seen then dedupAux seen xs else x :: dedupAux (x :: seen) xs

/-- First-occurrence deduplication: the contents of
`std::unordered_set<std::string> requested(usernames.begin(), usernames.end())`.
The set's iteration order is unspecified in C++; first-insertion order is the
modelling choice (no claim depends on the order of the ADD_ROW block). -/
def dedupFirst (l : List (List Nat)) : List (List Nat) :=
  dedupAux [] l

/-- The member loop of `ExmdbQueries::setFolderMembers`
(src/queries.cpp:368-379): skip special members, erase the member's mail
from the requested set, compute the new rights, and emit a
MODIFY_ROW/REMOVE_ROW `PermissionData` when the rights changed.  Returns the
emitted operations and the remaining requested set. -/
def procMembers (rights : Nat) : List Member → List (List Nat) →
    List PermissionData × List (List Nat)
  | [], req => ([], req)
  | m :: ms, req =>
    if m.special then procMembers rights ms req
    else
      let contained := m.mail ∈ req
      let newrights := if contained then m.rights ||| rights else m.rights &&& notMask32 rights
      let rest := procMembers rights ms (req.filter (· ≠ m.mail))
      if newrights = m.rights then rest
      else
        (⟨if newrights ≠ 0 then MODIFY_ROW else REMOVE_ROW,
          [.ofU64 PropTag.MEMBERID m.id, .ofU32 PropTag.MEMBERRIGHTS newrights]⟩ :: rest.1,
         rest.2)

/-- The full permission list computed by `ExmdbQueries::setFolderMembers`
(src/queries.cpp:361-387): member-loop operations followed by an ADD_ROW for
every requested username that matched no member. -/
def computePermissions (members : List Member) (usernames : List (List Nat))
    (rights : Nat) : List PermissionData :=
  let r := procMembers rights members (dedupFirst usernames)
  r.1 ++ r.2.map (fun u =>
    ⟨ADD_ROW, [.ofStr PropTag.SMTPADDRESS u, .ofU32 PropTag.MEMBERRIGHTS rights]⟩)

/-- `ExmdbQueries::setFolderMembers` as a trace computation: fetch the member
list, compute the permission diff, and send a single
`UpdateFolderPermission` iff the diff is non-empty; returns the number of
operations. -/
def setFolderMembers (homedir : List Nat) (folderId : Nat)
    (usernames : List (List Nat)) (rights : Nat) : QM Nat := do
  let table ← getFolderMemberList homedir folderId
  let permissions := computePermissions (membersFromTable table) usernames rights
  if permissions.length ≠ 0 then
    sendEmpty (.updateFolderPermission homedir folderId false permissions)
  pure permissions.length

/-- The bytes of the string literal `"devicedata"`. -/
def devicedataBytes : List Nat := [100, 101, 118, 105, 99, 101, 100, 97, 116, 97]

/-- The bytes of the string literal `"IPM.Note.GrommunioState"`. -/
def grommunioStateBytes : List Nat :=
  [73, 80, 77, 46, 78, 111, 116, 101, 46, 71, 114, 111, 109, 109, 117, 110,
   105, 111, 83, 116, 97, 116, 101]

/-- The `ddFilter` restriction of `getSyncData` (src/queries.cpp:486). -/
def ddFilter : Restriction :=
  Restriction.AND
    [Restriction.PROPERTY Op.EQ 0 (.ofStr PropTag.DISPLAYNAME devicedataBytes),
     Restriction.PROPERTY Op.EQ 0 (.ofStr PropTag.MESSAGECLASS grommunioStateBytes)]

/-- Per-subfolder body of the `getSyncData` loop (src/queries.cpp:497-513):
rows of unexpected shape are skipped; otherwise the subfolder's content
table is loaded with `ddFilter`, queried for `MID`, unloaded, and — when a
well-shaped message row exists — its BODY is fetched and a
`displayName ↦ body` pair accumulated (`std::unordered_map::emplace`,
modelled as ordered append). -/
def syncLoop (homedir : List Nat) : List (List TaggedPropval) →
    List (List Nat × List Nat) → QM (List (List Nat × List Nat))
  | [], data => pure data
  | subfolder :: rest, data =>
    match subfolder with
    | [tp0, tp1] =>
      if tp0.tag = PropTag.FOLDERID ∧ tp1.tag = PropTag.DISPLAYNAME then do
        let content ← sendTable (.loadContentTable homedir 0 tp0.value.asU64 [] 2 ddFilter)
        let table ← sendEntries (.queryTable homedir [] 0 content.1 [PropTag.MID] 0 content.2)
        sendEmpty (.unloadTable homedir content.1)
        match table with
        | [] => syncLoop homedir rest data
        | msgobject :: _ =>
          match msgobject with
          | [mtp] =>
            if mtp.tag = PropTag.MID then do
              let x ← sendQ (.getMessageProperties homedir [] 0 mtp.value.asU64 [PropTag.BODY])
              let message ← asPropvals x
              match message with
              | [btp] =>
                if btp.tag = PropTag.BODY then
                  syncLoop homedir rest (data ++ [(tp1.value.asStr, btp.value.asStr)])
                else syncLoop homedir rest data
              | _ => syncLoop homedir rest data
            else syncLoop homedir rest data
          | _ => syncLoop homedir rest data
      else syncLoop homedir rest data
    | _ => syncLoop homedir rest data

/-- `ExmdbQueries::getSyncData` (src/queries.cpp:480): find the sync folder,
list its subfolders (hierarchy table: load, query FOLDERID+DISPLAYNAME,
unload), then run the per-device loop. -/
def getSyncData (homedir folderName : List Nat) : QM (List (List Nat × List Nat)) := do
  let parentFolderID := makeEidEx 1 PublicFidROOT
  let x ← sendQ (.getFolderByName homedir parentFolderID folderName)
  let folderId ← asFolder x
  let subfolders ← sendTable (.loadHierarchyTable homedir folderId [] 0 .xnull)
  let subfolderIDs ← sendEntries (.queryTable homedir [] 0 subfolders.1
    [PropTag.FOLDERID, PropTag.DISPLAYNAME] 0 subfolders.2)
  sendEmpty (.unloadTable homedir subfolders.1)
  syncLoop homedir subfolderIDs []

/-- The `noDD` restriction of `resyncDevice` (src/queries.cpp:551):
`PROPERTY(NE, 0, TaggedPropval(DISPLAYNAME, "devicedata"))`. -/
def noDD : Restriction :=
  Restriction.PROPERTY Op.NE 0 (.ofStr PropTag.DISPLAYNAME devicedataBytes)

/-- `ExmdbQueries::resyncDevice` (src/queries.cpp:548): locate the device
folder under the named sync folder, load its content table filtered with
`noDD`, query `MID`, unload, collect every MID value from the rows, issue
`DeleteMessages(..., hard=true)` and return the negated `partial` flag. -/
def resyncDevice (homedir folderName deviceId : List Nat) (userId : Nat) : QM Bool := do
  let rootFolderId := makeEidEx 1 PublicFidROOT
  let x ← sendQ (.getFolderByName homedir rootFolderId folderName)
  let syncFolder ← asFolder x
  let y ← sendQ (.getFolderByName homedir syncFolder deviceId)
  let deviceFolder ← asFolder y
  let content ← sendTable (.loadContentTable homedir 0 deviceFolder [] 2 noDD)
  let table ← sendEntries (.queryTable homedir [] 0 content.1 [PropTag.MID] 0 content.2)
  sendEmpty (.unloadTable homedir content.1)
  let mids := (table.map (fun row =>
    row.filterMap (fun tg => if tg.tag = PropTag.MID then some tg.value.asU64 else none))).flatten
  let z ← sendQ (.deleteMessages homedir userId 0 [] deviceFolder mids true)
  let part ← asDeleted z
  pure (!part)

/-! ### Server-side application of permission operations

Modelled from the spec: the server applying an `UpdateFolderPermission`
request is not part of this repository.  Per the spec's description of the
operation flags, `ADD_ROW` inserts a new member row with the given mail and
rights (the server assigns a fresh, non-special member id — modelled as
`2^64`, distinct from every 64-bit id and from the special ids 0 and
`2^64-1`), `MODIFY_ROW` replaces the rights of the row with the given member
id, and `REMOVE_ROW` deletes that row. -/

/-- Extract the MEMBERID carried by a permission op's propvals. -/
def opMemberId (p : PermissionData) : Option Nat :=
  (p.propvals.find? (fun tp => tp.tag = PropTag.MEMBERID)).map (fun tp => tp.value.asU64)

/-- Extract the MEMBERRIGHTS carried by a permission op's propvals. -/
def opRights (p : PermissionData) : Option Nat :=
  (p.propvals.find? (fun tp => tp.tag = PropTag.MEMBERRIGHTS)).map (fun tp => tp.value.asU32)

/-- Extract the SMTPADDRESS carried by a permission op's propvals. -/
def opMail (p : PermissionData) : Option (List Nat) :=
  (p.propvals.find? (fun tp => tp.tag = PropTag.SMTPADDRESS)).map (fun tp => tp.value.asStr)

/-- Apply one permission operation to a member list (modelled from the
spec). -/
def applyOp (members : List Member) (p : PermissionData) : List Member :=
  if p.flags = REMOVE_ROW then
    members.filter (fun m => some m.id ≠ opMemberId p)
  else if p.flags = MODIFY_ROW then
    members.map (fun m =>
      if some m.id = opMemberId p then { m with rights := (opRights p).getD m.rights } else m)
  else if p.flags = ADD_ROW then
    members ++ [{ mail := (opMail p).getD [], id := 2 ^ 64, rights := (opRights p).getD 0 }]
  else members

/-- Apply a batch of permission operations in order (modelled from the
spec). -/
def applyOps (members : List Member) (ops : List PermissionData) : List Member :=
  ops.foldl applyOp members

/-! ### Trace balance helpers (table lifecycle) -/

/-- Whether a request is a `Load…Table`. -/
def Req.isLoad : Req → Bool
  | .loadHierarchyTable .. => true
  | .loadContentTable .. => true
  | .loadPermissionTable .. => true
  | _ => false

/-- The table ids granted by the oracle for the load requests of a trace,
pairing each request with the response that answered it. -/
def loadedTableIds : List Req → List (Option Resp) → List Nat
  | [], _ => []
  | _ :: _, [] => []
  | r :: tr, o :: os =>
    (if r.isLoad then
      match o with
      | some (.table t _) => [t]
      | _ => []
     else []) ++ loadedTableIds tr os

/-- The table ids of the `UnloadTable` requests of a trace, in order. -/
def unloadedTableIds : List Req → List Nat
  | [] => []
  | .unloadTable _ t :: tr => t :: unloadedTableIds tr
  | _ :: tr => unloadedTableIds tr

/-- Oracle segments on which one iteration of the `getSyncData` loop body
succeeds, by control-flow case (src/queries.cpp:497-513). -/
inductive SegOK : List TaggedPropval → List (Option Resp) → Prop where
  | skip (row : List TaggedPropval)
      (h : ∀ tp0 tp1, row = [tp0, tp1] →
        ¬(tp0.tag = PropTag.FOLDERID ∧ tp1.tag = PropTag.DISPLAYNAME)) :
      SegOK row []
  | emptyTable (tp0 tp1 : TaggedPropval) (t rc : Nat) (u : Resp)
      (h : tp0.tag = PropTag.FOLDERID ∧ tp1.tag = PropTag.DISPLAYNAME) :
      SegOK [tp0, tp1] [some (.table t rc), some (.entries []), some u]
  | badMsg (tp0 tp1 : TaggedPropval) (t rc : Nat) (msg : List TaggedPropval)
      (more : List (List TaggedPropval)) (u : Resp)
      (h : tp0.tag = PropTag.FOLDERID ∧ tp1.tag = PropTag.DISPLAYNAME)
      (hm : ∀ mtp, msg = [mtp] → ¬mtp.tag = PropTag.MID) :
      SegOK [tp0, tp1] [some (.table t rc), some (.entries (msg :: more)), some u]
  | withMsg (tp0 tp1 : TaggedPropval) (t rc : Nat) (mtp : TaggedPropval)
      (more : List (List TaggedPropval)) (u : Resp) (props : List TaggedPropval)
      (h : tp0.tag = PropTag.FOLDERID ∧ tp1.tag = PropTag.DISPLAYNAME)
      (hm : mtp.tag = PropTag.MID) :
      SegOK [tp0, tp1] [some (.table t rc), some (.entries ([mtp] :: more)), some u,
        some (.propvals props)]

/-! ### Ownership heap model for TaggedPropval copy/move
(src/structures.cpp:410-465, 589-666)

The pointer members of `TaggedPropval::Value` are modelled against an
explicit heap: a list of allocated buffers, `none` marking a freed slot.  A
buffer is either raw bytes (strings, binary, scalar arrays — the flat
`copyData` region), an array of string pointers (`VArray<char*>`), or an
array of binary descriptors (`VArray<VArray<uint8_t>>`, keeping only the
target references; the byte lengths live in the referenced buffers). -/

/-- A heap buffer. -/
inductive Buf where
  | bytes (data : List Nat)
  | strptrs (ps : List (Option Nat))
  | binptrs (ps : List (Option Nat))
deriving DecidableEq, Repr

/-- The heap: slot `i` holds buffer `i` or `none` once freed. -/
abbrev Heap : Type := List (Option Buf)

/-- Allocate a buffer, returning its id (`new[]`). -/
def Heap.alloc (h : Heap) (b : Buf) : Heap × Nat :=
  (List.append h [some b], List.length h)

/-- Free a buffer (`delete[]`); freeing an invalid id is a no-op slot-wise. -/
def Heap.freeBuf (h : Heap) (i : Nat) : Heap := List.set h i none

/-- Dereference a buffer id. -/
def Heap.get (h : Heap) (i : Nat) : Option Buf := (List.getD h i none)

/-- Number of slots ever allocated. -/
def Heap.size (h : Heap) : Nat := List.length h

/-- The value of a heap-modelled propval: scalar union members collapse to
their numeric bits, pointer members to a buffer reference
(`nullptr` = `none`). -/
inductive HValue where
  | scalar (v : Nat)
  | ptr (p : Option Nat)
deriving DecidableEq, Repr

/-- `TaggedPropval` with explicit ownership, as relevant to copy/move
(src/structures.cpp): tag, type, value, and the `owned` flag. -/
structure TPH where
  tag : Nat
  type : Nat
  value : HValue
  owned : Bool
deriving DecidableEq, Repr

/-- `PropvalType::isArray` (modelled from the spec's classification;
`BINARY` is treated as an array form by `count()` and `free()`). -/
def isArrayType (t : Nat) : Bool :=
  t = BINARY || t = SHORT_ARRAY || t = LONG_ARRAY || t = LONGLONG_ARRAY ||
  t = CURRENCY_ARRAY || t = FLOAT_ARRAY || t = DOUBLE_ARRAY ||
  t = FLOATINGTIME_ARRAY || t = STRING_ARRAY || t = WSTRING_ARRAY ||
  t = BINARY_ARRAY

/-- Dereference a pointer array to the byte contents of its targets;
`none` on a null or dangling element (`copyStr` on such a pointer is
undefined behaviour). -/
def derefAll (h : Heap) : List (Option Nat) → Option (List (List Nat))
  | [] => some []
  | none :: _ => none
  | some i :: ps =>
    match h.get i with
    | some (.bytes s) =>
      match derefAll h ps with
      | none => none
      | some ss => some (s :: ss)
    | _ => none

/-- Allocate one fresh byte buffer per string (`copyStr` for each element). -/
def allocStrs (h : Heap) : List (List Nat) → Heap × List (Option Nat)
  | [] => (h, [])
  | s :: ss =>
    let a := h.alloc (.bytes s)
    let r := allocStrs a.1 ss
    (r.1, some a.2 :: r.2)

/-- `TaggedPropval::copyValue` (src/structures.cpp:606): share the pointer
when it is null or the source is not owned; otherwise deep-copy according to
the type — strings via `copyStr`, string arrays via `copyData` of the
pointer array plus `copyStr` per element, binary arrays via the
uninitialized-length loop (src/structures.cpp:620-626, modelled
zero-initialized: every element comes out as a fresh empty buffer), other
array forms via a flat `copyData`; non-pointer (scalar) values are copied
plainly by either the null-pointer branch or the final `value = tp.value`. -/
def copyValueH (h : Heap) (tp : TPH) : Option (Heap × HValue) :=
  match tp.value with
  | .scalar v => some (h, .scalar v)
  | .ptr none => some (h, .ptr none)
  | .ptr (some b) =>
    if !tp.owned then some (h, .ptr (some b))
    else if tp.type = STRING ∨ tp.type = WSTRING then
      match h.get b with
      | some (.bytes s) =>
        let a := h.alloc (.bytes s)
        some (a.1, .ptr (some a.2))
      | _ => none
    else if tp.type = STRING_ARRAY ∨ tp.type = WSTRING_ARRAY then
      match h.get b with
      | some (.strptrs ps) =>
        match derefAll h ps with
        | none => none
        | some ss =>
          let r := allocStrs h ss
          let a := r.1.alloc (.strptrs r.2)
          some (a.1, .ptr (some a.2))
      | _ => none
    else if tp.type = BINARY_ARRAY then
      match h.get b with
      | some (.binptrs ps) =>
        let r := allocStrs h (ps.map (fun _ => ([] : List Nat)))
        let a := r.1.alloc (.binptrs r.2)
        some (a.1, .ptr (some a.2))
      | _ => none
    else if isArrayType tp.type then
      match h.get b with
      | some (.bytes s) =>
        let a := h.alloc (.bytes s)
        some (a.1, .ptr (some a.2))
      | _ => none
    else some (h, .ptr (some b))

/-- The copy constructor `TaggedPropval(const TaggedPropval&)`
(src/structures.cpp:410): copy tag, type and `owned`, then `copyValue`. -/
def copyTPH (h : Heap) (tp : TPH) : Option (Heap × TPH) :=
  match copyValueH h tp with
  | none => none
  | some (h₂, v) => some (h₂, ⟨tp.tag, tp.type, v, tp.owned⟩)

/-- `Value::zero` (src/structures.cpp:21): both data pointers become null;
for a scalar union member this zeroes the bits. -/
def HValue.zeroed : HValue → HValue
  | .scalar _ => .scalar 0
  | .ptr _ => .ptr none

/-- The move constructor `TaggedPropval(TaggedPropval&&)`
(src/structures.cpp:418): the destination takes tag, type, value and
`owned`; the source value is zeroed.  Returns (destination, source-after). -/
def moveTPH (tp : TPH) : TPH × TPH :=
  (⟨tp.tag, tp.type, tp.value, tp.owned⟩, ⟨tp.tag, tp.type, tp.value.zeroed, tp.owned⟩)

/-- Free the element buffers referenced by a pointer-array buffer
(`delete[] ptr` per element; deleting a null pointer is a no-op). -/
def freeElems (h : Heap) : Option Buf → Heap
  | some (.strptrs ps) => ps.foldl (fun a p => match p with | some i => a.freeBuf i | none => a) h
  | some (.binptrs ps) => ps.foldl (fun a p => match p with | some i => a.freeBuf i | none => a) h
  | _ => h

/-- `TaggedPropval::free` (src/structures.cpp:651): no-op unless owned with
a non-null pointer; string/binary arrays free their elements first; then
strings free the string buffer and array forms the flat buffer. -/
def freeTPH (h : Heap) (tp : TPH) : Heap :=
  if !tp.owned then h
  else
    match tp.value with
    | .scalar _ => h
    | .ptr none => h
    | .ptr (some b) =>
      if tp.type = STRING_ARRAY ∨ tp.type = WSTRING_ARRAY then
        (freeElems h (h.get b)).freeBuf b
      else if tp.type = BINARY_ARRAY then
        (freeElems h (h.get b)).freeBuf b
      else if tp.type = STRING ∨ tp.type = WSTRING then
        h.freeBuf b
      else if isArrayType tp.type then
        h.freeBuf b
      else h

/-- Fully dereferenced content of a propval: what the value denotes once all
pointers are followed. -/
inductive Content where
  | scalar (v : Nat)
  | nullp
  | bytes (s : List Nat)
  | strs (l : List (List Nat))
  | bins (l : List (List Nat))
deriving DecidableEq, Repr

/-- Read the content of a heap-modelled propval; `none` on a dangling
reference or shape mismatch. -/
def readTPH (h : Heap) (tp : TPH) : Option Content :=
  match tp.value with
  | .scalar v => some (.scalar v)
  | .ptr none => some .nullp
  | .ptr (some b) =>
    if tp.type = STRING ∨ tp.type = WSTRING then
      match h.get b with
      | some (.bytes s) => some (.bytes s)
      | _ => none
    else if tp.type = STRING_ARRAY ∨ tp.type = WSTRING_ARRAY then
      match h.get b with
      | some (.strptrs ps) => (derefAll h ps).map .strs
      | _ => none
    else if tp.type = BINARY_ARRAY then
      match h.get b with
      | some (.binptrs ps) => (derefAll h ps).map .bins
      | _ => none
    else
      match h.get b with
      | some (.bytes s) => some (.bytes s)
      | _ => none

/-- The buffer ids reachable from a propval in a given heap. -/
def bufsOf (h : Heap) (tp : TPH) : List Nat :=
  match tp.value with
  | .scalar _ => []
  | .ptr none => []
  | .ptr (some b) =>
    b :: (match h.get b with
      | some (.strptrs ps) => ps.filterMap id
      | some (.binptrs ps) => ps.filterMap id
      | _ => [])

/-- Well-formedness of a heap-modelled propval: pointer values occur only
with string/array types and dereference to a buffer of the matching shape
(with live elements for the nested array forms). -/
def wfTPH (h : Heap) (tp : TPH) : Bool :=
  match tp.value with
  | .scalar _ => !(tp.type = STRING || tp.type = WSTRING || isArrayType tp.type)
  | .ptr none => true
  | .ptr (some b) =>
    (tp.type = STRING || tp.type = WSTRING || isArrayType tp.type) &&
    (if tp.type = STRING ∨ tp.type = WSTRING then
      match h.get b with
      | some (.bytes _) => true
      | _ => false
     else if tp.type = STRING_ARRAY ∨ tp.type = WSTRING_ARRAY then
      match h.get b with
      | some (.strptrs ps) => (derefAll h ps).isSome
      | _ => false
     else if tp.type = BINARY_ARRAY then
      match h.get b with
      | some (.binptrs ps) => (derefAll h ps).isSome
      | _ => false
     else
      match h.get b with
      | some (.bytes _) => true
      | _ => false)

/-! ### ExmdbClient::reconnect (src/ExmdbClient.cpp:1525)

`reconnect` builds a fresh `Connection`, connects it with the stored
parameters, writes a `ConnectRequest(prefix, isPrivate)` frame and sends it
on the new socket; only then is the client's connection replaced
(`connection = std::move(newconn)`).  Any exception is caught and `false`
returned, with the previous connection untouched.  The two fallible steps
are abstracted by an environment: the socket the fresh connect would yield
(`none` = it throws) and whether sending the Connect request succeeds. -/

/-- Stored connection parameters `ExmdbClient::ConnParm`. -/
structure ConnParm where
  host : List Nat
  port : List Nat
  prefixStr : List Nat
  isPrivate : Bool
deriving DecidableEq, Repr

/-- The client state relevant to `reconnect`: the current connection's
socket (`none` = closed) and the stored parameters. -/
structure ClientSt where
  connection : Option Nat
  params : ConnParm
deriving DecidableEq, Repr

/-- Environment for one `reconnect` attempt. -/
structure ReconnectEnv where
  newSock : Option Nat
  sendOk : Bool
deriving DecidableEq, Repr

/-- A Connect request observed on a socket. -/
structure ConnSend where
  sock : Nat
  prefixStr : List Nat
  isPrivate : Bool
deriving DecidableEq, Repr

/-- `ExmdbClient::reconnect` (src/ExmdbClient.cpp:1525): returns the result,
the new client state, and the Connect requests sent (on which socket). -/
def reconnect (env : ReconnectEnv) (st : ClientSt) :
    Bool × ClientSt × List ConnSend :=
  match env.newSock with
  | none => (false, st, [])
  | some s =>
    if env.sendOk then
      (true, { st with connection := some s },
       [⟨s, st.params.prefixStr, st.params.isPrivate⟩])
    else
      (false, st, [⟨s, st.params.prefixStr, st.params.isPrivate⟩])

/-- The operation emitted by the member loop of `setFolderMembers`
(src/queries.cpp:368-379) for a single member, given the requested set the
member's iteration sees. -/
def memOp (R : Nat) (req : List (List Nat)) (m : Member) : Option PermissionData :=
  if m.special then none
  else
    let nr := if m.mail ∈ req then m.rights ||| R else m.rights &&& notMask32 R
    if nr = m.rights then none
    else some (PermissionData.mk (if nr ≠ 0 then MODIFY_ROW else REMOVE_ROW)
      [.ofU64 PropTag.MEMBERID m.id, .ofU32 PropTag.MEMBERRIGHTS nr])

/-- Whether a requested username survives the member loop's `erase` calls
(no non-special member has this mail). -/
def survives (ms : List Member) (u : List Nat) : Bool :=
  ms.all (fun m => m.special || u ≠ m.mail)

/-- A one-member permission-table row used to exercise `setFolderMembers`:
member id 5, mail "a", rights 1. -/
def sampleMemberRow : List TaggedPropval :=
  [TaggedPropval.ofU64 PropTag.MEMBERID 5,
   TaggedPropval.ofStr PropTag.SMTPADDRESS [97],
   TaggedPropval.ofU32 PropTag.MEMBERRIGHTS 1]

/-! ## Theorems -/

attribute [simp] PropvalType.UNSPECIFIED PropvalType.SHORT PropvalType.LONG
  PropvalType.FLOAT PropvalType.DOUBLE PropvalType.CURRENCY
  PropvalType.FLOATINGTIME PropvalType.ERROR PropvalType.BYTE
  PropvalType.LONGLONG PropvalType.STRING PropvalType.WSTRING
  PropvalType.FILETIME PropvalType.BINARY PropvalType.SHORT_ARRAY
  PropvalType.LONG_ARRAY PropvalType.FLOAT_ARRAY PropvalType.DOUBLE_ARRAY
  PropvalType.CURRENCY_ARRAY PropvalType.FLOATINGTIME_ARRAY
  PropvalType.LONGLONG_ARRAY PropvalType.STRING_ARRAY
  PropvalType.WSTRING_ARRAY PropvalType.BINARY_ARRAY

theorem popLE_pushLE {w v : Nat} (h : v < 256 ^ w) (r : List Nat) :
    popLE w (pushLE w v ++ r) = some (v, r) := by
  induction w generalizing v with
  | zero =>
    have hv : v = 0 := by simpa using h
    subst hv
    simp [pushLE, popLE]
  | succ w ih =>
    have hv : v / 256 < 256 ^ w := by
      rw [Nat.div_lt_iff_lt_mul (by norm_num)]
      calc v < 256 ^ (w + 1) := h
        _ = 256 ^ w * 256 := by ring
    simp [pushLE, popLE, ih hv, Nat.mod_add_div]

theorem popStr_append {s : List Nat} (h : ∀ c ∈ s, c ≠ 0) (r : List Nat) :
    popStr (s ++ 0 :: r) = some (s, r) := by
  induction s with
  | nil => simp [popStr]
  | cons c cs ih =>
    have hc : c ≠ 0 := h c (by simp)
    simp [popStr, hc, ih (fun x hx => h x (by simp [hx]))]

theorem popRaw_append (d r : List Nat) : popRaw d.length (d ++ r) = some (d, r) := by
  induction d with
  | nil => simp [popRaw]
  | cons x xs ih => simp [popRaw, ih]

theorem popN_flatten {α : Type} {p : List Nat → Option (α × List Nat)} {e : α → List Nat}
    {l : List α} (hp : ∀ a ∈ l, ∀ r, p (e a ++ r) = some (a, r)) (r : List Nat) :
    popN p l.length ((l.map e).flatten ++ r) = some (l, r) := by
  induction l with
  | nil => simp [popN]
  | cons a as ih =>
    have h₁ := hp a (by simp) (((as.map e).flatten ++ r))
    have h₂ := ih (fun x hx r₂ => hp x (by simp [hx]) r₂)
    simp [popN, h₁, h₂]

theorem serializeValue_popValue {t : Nat} {v : PValue} (h : v.typeOK t = true) :
    ∃ b, serializeValue t v = some b ∧ ∀ r, popValue t (b ++ r) = some (v, r) := by
  cases v with
  | u8 n =>
    simp only [PValue.typeOK, Bool.and_eq_true, decide_eq_true_eq] at h
    obtain ⟨ht, hn⟩ := h
    subst ht
    exact ⟨_, rfl, fun r => by
      simp [popValue, popLE_pushLE (w := 1) (v := n) (by norm_num at hn ⊢; omega) r]⟩
  | u16 n =>
    simp only [PValue.typeOK, Bool.and_eq_true, decide_eq_true_eq] at h
    obtain ⟨ht, hn⟩ := h
    subst ht
    exact ⟨_, rfl, fun r => by
      simp [popValue, popLE_pushLE (w := 2) (v := n) (by norm_num at hn ⊢; omega) r]⟩
  | u32 n =>
    simp only [PValue.typeOK, Bool.and_eq_true, Bool.or_eq_true, decide_eq_true_eq] at h
    obtain ⟨ht, hn⟩ := h
    have hle := fun r => popLE_pushLE (w := 4) (v := n) (by norm_num at hn ⊢; omega) r
    rcases ht with ht | ht <;> subst ht <;>
      exact ⟨_, rfl, fun r => by simp [popValue, hle r]⟩
  | u64 n =>
    simp only [PValue.typeOK, Bool.and_eq_true, Bool.or_eq_true, decide_eq_true_eq] at h
    obtain ⟨ht, hn⟩ := h
    have hle := fun r => popLE_pushLE (w := 8) (v := n) (by norm_num at hn ⊢; omega) r
    rcases ht with (ht | ht) | ht <;> subst ht <;>
      exact ⟨_, rfl, fun r => by simp [popValue, hle r]⟩
  | f32 n =>
    simp only [PValue.typeOK, Bool.and_eq_true, decide_eq_true_eq] at h
    obtain ⟨ht, hn⟩ := h
    subst ht
    exact ⟨_, rfl, fun r => by
      simp [popValue, popLE_pushLE (w := 4) (v := n) (by norm_num at hn ⊢; omega) r]⟩
  | f64 n =>
    simp only [PValue.typeOK, Bool.and_eq_true, Bool.or_eq_true, decide_eq_true_eq] at h
    obtain ⟨ht, hn⟩ := h
    have hle := fun r => popLE_pushLE (w := 8) (v := n) (by norm_num at hn ⊢; omega) r
    rcases ht with ht | ht <;> subst ht <;>
      exact ⟨_, rfl, fun r => by simp [popValue, hle r]⟩
  | str s =>
    simp only [PValue.typeOK, Bool.and_eq_true, Bool.or_eq_true, decide_eq_true_eq,
      List.all_eq_true] at h
    obtain ⟨ht, hs⟩ := h
    have hz : ∀ c ∈ s, c ≠ 0 := fun c hc => by
      have := hs c hc
      simp only [Bool.and_eq_true, decide_eq_true_eq] at this
      exact this.2
    rcases ht with ht | ht <;> subst ht <;>
      exact ⟨_, rfl, fun r => by
        have h₁ := popStr_append hz r
        simp [popValue, h₁]⟩
  | bin d =>
    simp only [PValue.typeOK, Bool.and_eq_true, decide_eq_true_eq] at h
    obtain ⟨⟨ht, hlen⟩, _⟩ := h
    subst ht
    refine ⟨_, rfl, fun r => ?_⟩
    have h₁ := popLE_pushLE (w := 4) (v := d.length) (by norm_num at hlen ⊢; omega) (d ++ r)
    simp [popValue, popBin, h₁, popRaw_append]
  | a16 l =>
    simp only [PValue.typeOK, Bool.and_eq_true, decide_eq_true_eq, List.all_eq_true] at h
    obtain ⟨⟨ht, hlen⟩, hl⟩ := h
    subst ht
    refine ⟨_, rfl, fun r => ?_⟩
    have h₁ := popLE_pushLE (w := 4) (v := l.length)
      (by norm_num at hlen ⊢; omega) ((l.map (pushLE 2)).flatten ++ r)
    have h₂ := popN_flatten (p := popLE 2) (e := pushLE 2) (l := l)
      (fun a ha r₂ => popLE_pushLE (by have := hl a ha; norm_num at this ⊢; omega) r₂) r
    simp [popValue, h₁, h₂]
  | a32 l =>
    simp only [PValue.typeOK, Bool.and_eq_true, decide_eq_true_eq, List.all_eq_true] at h
    obtain ⟨⟨ht, hlen⟩, hl⟩ := h
    subst ht
    refine ⟨_, rfl, fun r => ?_⟩
    have h₁ := popLE_pushLE (w := 4) (v := l.length)
      (by norm_num at hlen ⊢; omega) ((l.map (pushLE 4)).flatten ++ r)
    have h₂ := popN_flatten (p := popLE 4) (e := pushLE 4) (l := l)
      (fun a ha r₂ => popLE_pushLE (by have := hl a ha; norm_num at this ⊢; omega) r₂) r
    simp [popValue, h₁, h₂]
  | a64 l =>
    simp only [PValue.typeOK, Bool.and_eq_true, Bool.or_eq_true, decide_eq_true_eq,
      List.all_eq_true] at h
    obtain ⟨⟨ht, hlen⟩, hl⟩ := h
    have h₁ := fun r => popLE_pushLE (w := 4) (v := l.length)
      (by norm_num at hlen ⊢; omega) ((l.map (pushLE 8)).flatten ++ r)
    have h₂ := popN_flatten (p := popLE 8) (e := pushLE 8) (l := l)
      (fun a ha r₂ => popLE_pushLE (by have := hl a ha; norm_num at this ⊢; omega) r₂)
    rcases ht with ht | ht <;> subst ht <;>
      exact ⟨_, rfl, fun r => by simp [popValue, h₁ r, h₂ r]⟩
  | af32 l =>
    simp only [PValue.typeOK, Bool.and_eq_true, decide_eq_true_eq, List.all_eq_true] at h
    obtain ⟨⟨ht, hlen⟩, hl⟩ := h
    subst ht
    refine ⟨_, rfl, fun r => ?_⟩
    have h₁ := popLE_pushLE (w := 4) (v := l.length)
      (by norm_num at hlen ⊢; omega) ((l.map (pushLE 4)).flatten ++ r)
    have h₂ := popN_flatten (p := popLE 4) (e := pushLE 4) (l := l)
      (fun a ha r₂ => popLE_pushLE (by have := hl a ha; norm_num at this ⊢; omega) r₂) r
    simp [popValue, h₁, h₂]
  | af64 l =>
    simp only [PValue.typeOK, Bool.and_eq_true, Bool.or_eq_true, decide_eq_true_eq,
      List.all_eq_true] at h
    obtain ⟨⟨ht, hlen⟩, hl⟩ := h
    have h₁ := fun r => popLE_pushLE (w := 4) (v := l.length)
      (by norm_num at hlen ⊢; omega) ((l.map (pushLE 8)).flatten ++ r)
    have h₂ := popN_flatten (p := popLE 8) (e := pushLE 8) (l := l)
      (fun a ha r₂ => popLE_pushLE (by have := hl a ha; norm_num at this ⊢; omega) r₂)
    rcases ht with ht | ht <;> subst ht <;>
      exact ⟨_, rfl, fun r => by simp [popValue, h₁ r, h₂ r]⟩
  | astr l =>
    simp only [PValue.typeOK, Bool.and_eq_true, Bool.or_eq_true, decide_eq_true_eq,
      List.all_eq_true] at h
    obtain ⟨⟨ht, hlen⟩, hl⟩ := h
    have h₁ := fun r => popLE_pushLE (w := 4) (v := l.length)
      (by norm_num at hlen ⊢; omega) ((l.map (· ++ [0])).flatten ++ r)
    have h₂ := popN_flatten (p := popStr) (e := (· ++ [0])) (l := l)
      (fun a ha r₂ => by
        have hz : ∀ c ∈ a, c ≠ 0 := fun c hc => by
          have := hl a ha
          simp only [List.all_eq_true, Bool.and_eq_true, decide_eq_true_eq] at this
          exact (this c hc).2
        simpa using popStr_append hz r₂)
    rcases ht with ht | ht <;> subst ht <;>
      exact ⟨_, rfl, fun r => by simp [popValue, h₁ r, h₂ r]⟩
  | abin l =>
    simp only [PValue.typeOK, Bool.and_eq_true, decide_eq_true_eq, List.all_eq_true] at h
    obtain ⟨⟨ht, hlen⟩, hl⟩ := h
    subst ht
    refine ⟨_, rfl, fun r => ?_⟩
    have h₁ := popLE_pushLE (w := 4) (v := l.length)
      (by norm_num at hlen ⊢; omega) ((l.map (fun d => pushLE 4 d.length ++ d)).flatten ++ r)
    have h₂ := popN_flatten (p := popBin) (e := fun d => pushLE 4 d.length ++ d) (l := l)
      (fun a ha r₂ => by
        have hla : a.length < 256 ^ 4 := by
          have := hl a ha
          simp only [Bool.and_eq_true, decide_eq_true_eq] at this
          norm_num
          omega
        have := popLE_pushLE (w := 4) (v := a.length) hla (a ++ r₂)
        simp [popBin, this, popRaw_append]) r
    simp [popValue, h₁, h₂]

/-- **C2**: for every well-formed `TaggedPropval` (value agreeing with the
tag's type, payloads within their wire widths, strings NUL-free),
serializing into a buffer and deserializing the produced bytes yields a
propval equal to the original in tag, type and payload — including
zero-length arrays and empty strings, which the well-formedness predicate
admits. -/
theorem propval_serialize_roundtrip (pv : TaggedPropval) (rest : List Nat)
    (h : pv.wf = true) :
    ∃ bs, serializeTP pv = some bs ∧ deserializeTP (bs ++ rest) = some (pv, rest) := by
  obtain ⟨tg, ty, vl⟩ := pv
  simp only [TaggedPropval.wf, Bool.and_eq_true, decide_eq_true_eq] at h
  obtain ⟨⟨⟨htag, hty⟩, hok⟩, hcons⟩ := h
  obtain ⟨body, hser, hpop⟩ := serializeValue_popValue hok
  have htag4 : tg < 256 ^ 4 := by norm_num at htag ⊢; omega
  by_cases hu : tagType tg = 0
  · have htag0 : tg = 0 := by simpa [hu] using hcons
    subst htag0
    refine ⟨pushLE 4 0 ++ pushLE 2 ty ++ body, ?_, ?_⟩
    · simp [serializeTP, hser, hu]
    · have h₁ := popLE_pushLE (w := 4) (v := 0) htag4
        (pushLE 2 ty ++ (body ++ rest))
      have h₂ := popLE_pushLE (w := 2) (v := ty) (by norm_num at hty ⊢; omega)
        (body ++ rest)
      simp [deserializeTP, h₁, h₂, hpop rest]
  · have hty2 : ty = tg % 65536 := by
      have := by simpa [hu] using hcons
      simpa [tagType] using this
    have htagne : ¬tg = 0 := by
      intro hc
      exact hu (by simp [hc, tagType])
    refine ⟨pushLE 4 tg ++ body, ?_, ?_⟩
    · simp [serializeTP, hser, hu]
    · have h₁ := popLE_pushLE (w := 4) (v := tg) htag4 (body ++ rest)
      simp [deserializeTP, htagne, h₁, ← hty2, hpop rest]

/-- Witness for C2 at a concrete input: a zero-length LONG_ARRAY propval
round-trips. -/
theorem propval_serialize_roundtrip_witness :
    (⟨0x12341003, 0x1003, .a32 []⟩ : TaggedPropval).wf = true ∧
    ∃ bs, serializeTP ⟨0x12341003, 0x1003, .a32 []⟩ = some bs ∧
      deserializeTP (bs ++ []) = some (⟨0x12341003, 0x1003, .a32 []⟩, []) :=
  ⟨by decide, propval_serialize_roundtrip ⟨0x12341003, 0x1003, .a32 []⟩ [] (by decide)⟩

/-- An unrecognized type code (in particular `UNSPECIFIED` itself) reads no
value: every branch of the deserialization switch is refused. -/
theorem popValue_unspecified (b : List Nat) : popValue 0 b = none := by
  simp [popValue]

/-- **C4, counterexample**: the tag `0x00010000` (property id 1, type code
`UNSPECIFIED`) falsifies the claim's deserialization direction.  The claim
says the explicit 16-bit type is read exactly when the tag's *type code*
(low 16 bits) is `UNSPECIFIED`; the code compares the *whole 32-bit tag*
with `UNSPECIFIED` (src/structures.cpp:40), so for these bytes — tag
`0x00010000`, explicit type `LONG`, value `42` — it does not read the
explicit type, takes `type = tag & 0xFFFF = UNSPECIFIED`, and fails, instead
of returning the LONG propval the claim requires. -/
theorem deserialize_unspecified_counterexample :
    tagType 0x10000 = PropvalType.UNSPECIFIED ∧
    deserializeTP (pushLE 4 0x10000 ++ (pushLE 2 PropvalType.LONG ++ pushLE 4 42)) = none ∧
    deserializeTP (pushLE 4 0x10000 ++ (pushLE 2 PropvalType.LONG ++ pushLE 4 42)) ≠
      some (⟨0x10000, PropvalType.LONG, .u32 42⟩, []) := by
  refine ⟨by decide, by decide, ?_⟩
  intro h
  rw [show deserializeTP (pushLE 4 0x10000 ++ (pushLE 2 PropvalType.LONG ++ pushLE 4 42)) =
    none by decide] at h
  exact Option.noConfusion h

/-- **C4, amended**: deserialization reads the explicit 16-bit type exactly
when the *entire 32-bit tag* equals `UNSPECIFIED` (property id 0 and type
code `UNSPECIFIED`); a tag whose type code is `UNSPECIFIED` but whose
property id is non-zero is not given an explicit type and fails.
Serialization writes the explicit type iff the tag's *type code* is
`UNSPECIFIED`, as the claim stated. -/
theorem deserialize_type_dispatch :
    (∀ (t : Nat) (body rest : List Nat) (v : PValue), t < 2 ^ 16 →
      popValue t body = some (v, rest) →
      deserializeTP (pushLE 4 0 ++ (pushLE 2 t ++ body)) = some (⟨0, t, v⟩, rest)) ∧
    (∀ (tag : Nat) (body rest : List Nat) (v : PValue), tag < 2 ^ 32 → tag ≠ 0 →
      popValue (tag % 65536) body = some (v, rest) →
      deserializeTP (pushLE 4 tag ++ body) = some (⟨tag, tag % 65536, v⟩, rest)) ∧
    (∀ (tag : Nat) (body : List Nat), tag < 2 ^ 32 → tag ≠ 0 → tagType tag = 0 →
      deserializeTP (pushLE 4 tag ++ body) = none) ∧
    (∀ (pv : TaggedPropval) (bs : List Nat), serializeTP pv = some bs →
      bs = pushLE 4 pv.tag ++
        (if tagType pv.tag = 0 then pushLE 2 pv.type else []) ++
        (serializeValue pv.type pv.value).getD []) := by
  refine ⟨?_, ?_, ?_, ?_⟩
  · intro t body rest v ht hv
    have h₁ := popLE_pushLE (w := 4) (v := 0) (by norm_num) (pushLE 2 t ++ body)
    have h₂ := popLE_pushLE (w := 2) (v := t) (by norm_num at ht ⊢; omega) body
    simp [deserializeTP, h₁, h₂, hv]
  · intro tag body rest v htag hne hv
    have h₁ := popLE_pushLE (w := 4) (v := tag) (by norm_num at htag ⊢; omega) body
    simp [deserializeTP, h₁, hne, hv]
  · intro tag body htag hne hzero
    have h₁ := popLE_pushLE (w := 4) (v := tag) (by norm_num at htag ⊢; omega) body
    have hz : tag % 65536 = 0 := by simpa [tagType] using hzero
    simp [deserializeTP, h₁, hne, hz, popValue_unspecified]
  · intro pv bs h
    rcases hser : serializeValue pv.type pv.value with _ | body
    · simp [serializeTP, hser] at h
    · simp only [serializeTP, hser, Option.some.injEq] at h
      rw [← h]
      simp [hser]

/-- Witness for C4 at concrete inputs: an explicit type is read for the tag
`UNSPECIFIED`; it is not read (and the tag's low bits become the type) for a
non-zero tag; a tag with property id `1` and type code `UNSPECIFIED` fails;
a LONG propval serializes without an explicit type. -/
theorem deserialize_type_dispatch_witness :
    deserializeTP (pushLE 4 0 ++ (pushLE 2 3 ++ pushLE 4 7)) = some (⟨0, 3, .u32 7⟩, []) ∧
    deserializeTP (pushLE 4 0x66730003 ++ pushLE 4 7) =
      some (⟨0x66730003, 3, .u32 7⟩, []) ∧
    deserializeTP (pushLE 4 0x10000 ++ [9, 9]) = none ∧
    ([3, 0, 0, 0, 7, 0, 0, 0] : List Nat) = pushLE 4 3 ++
      (if tagType 3 = 0 then pushLE 2 3 else []) ++
      (serializeValue 3 (.u32 7)).getD [] :=
  ⟨by
      have := deserialize_type_dispatch.1 3 (pushLE 4 7) [] (.u32 7) (by norm_num) (by decide)
      simpa using this,
   by
      have := deserialize_type_dispatch.2.1 0x66730003 (pushLE 4 7) [] (.u32 7)
        (by norm_num) (by norm_num) (by decide)
      simpa using this,
   deserialize_type_dispatch.2.2.1 0x10000 [9, 9] (by norm_num) (by norm_num) (by decide),
   deserialize_type_dispatch.2.2.2 ⟨3, 3, .u32 7⟩ [3, 0, 0, 0, 7, 0, 0, 0] (by decide)⟩

/-- **C3**: the code violates `gcToValue(valueToGc(x)) == x`.  `gcToValue`
masks with `0xFFFFFFFFFFFF` instead of shifting right by 16
(src/util.cpp:39), although its own documentation says "Inverse of
valueToGc"; already at `x = 1` the round-trip yields `65536`. -/
theorem gcToValue_valueToGc_failing_input :
    gcToValue (valueToGc 1) = 65536 ∧ gcToValue (valueToGc 1) ≠ 1 ∧
    valueToGc 1 = bswap64 65536 := by
  refine ⟨by decide, ?_, by decide⟩
  intro h
  rw [show gcToValue (valueToGc 1) = 65536 by decide] at h
  exact absurd h (by norm_num)

/-- **C10**: for a COMMENT restriction built by `Restriction::COMMENT` with
1..255 serializable propvals, the serialized form is the type byte, the
count byte, the propvals, and then: present byte `0` with no sub-restriction
bytes when the argument restriction is non-NULL (the constructor stored
`nullptr`), or present byte `1` followed by nothing when the argument is the
NULL restriction (the stored sub-restriction serializes to no bytes). -/
theorem comment_restriction_serialization (propvals : List TaggedPropval)
    (res : Restriction) (pb : List Nat) (h1 : 1 ≤ propvals.length)
    (h2 : propvals.length ≤ 255) (hp : serializeTPList propvals = some pb) :
    serializeR (Restriction.COMMENT propvals res) =
      some (0x0a :: (pushLE 1 propvals.length ++ pb ++
        (if res.isNull then pushLE 1 1 else pushLE 1 0))) := by
  have hlen : ¬(propvals.length = 0 ∨ propvals.length > 255) := by omega
  cases res <;>
    simp [Restriction.COMMENT, Restriction.isNull, serializeR, hlen, hp] <;>
    exact ⟨fun hh => by simp [hh] at h1, h2⟩

/-- Witness for C10 at concrete inputs: one LONG propval with a non-NULL
sub-restriction (present byte 0, restriction dropped). -/
theorem comment_restriction_serialization_witness :
    serializeR (Restriction.COMMENT [⟨0x66730003, 3, .u32 1⟩] (.rExist 5)) =
      some (0x0a :: (pushLE 1 1 ++ [3, 0, 115, 102, 1, 0, 0, 0] ++
        (if (Restriction.rExist 5).isNull then pushLE 1 1 else pushLE 1 0))) :=
  comment_restriction_serialization [⟨0x66730003, 3, .u32 1⟩] (.rExist 5)
    [3, 0, 115, 102, 1, 0, 0, 0] (by decide) (by decide) (by decide)

/-- **C9**: `reconnect()` succeeds exactly when the fresh connection and the
re-issued Connect request both succeed; on any failure the stored connection
is left intact and `false` is returned; on success the new socket has
replaced the old connection; every Connect request it sends goes to the new
socket and carries the stored prefix and isPrivate parameters. -/
theorem reconnect_spec (env : ReconnectEnv) (st : ClientSt) :
    ((reconnect env st).1 = true ↔ env.newSock ≠ none ∧ env.sendOk = true) ∧
    ((reconnect env st).1 = false → (reconnect env st).2.1 = st) ∧
    ((reconnect env st).1 = true →
      (reconnect env st).2.1.connection = env.newSock ∧
      (reconnect env st).2.1.params = st.params) ∧
    (∀ c ∈ (reconnect env st).2.2,
      c.prefixStr = st.params.prefixStr ∧ c.isPrivate = st.params.isPrivate ∧
      env.newSock = some c.sock) := by
  obtain ⟨sock, sendOk⟩ := env
  cases sock <;> cases sendOk <;> simp [reconnect]

/-- Witness for C9 at a concrete input: connect succeeds, send succeeds. -/
theorem reconnect_spec_witness :
    ((reconnect ⟨some 7, true⟩ ⟨some 3, ⟨[104], [53], [47], true⟩⟩).1 = true ↔
      (⟨some 7, true⟩ : ReconnectEnv).newSock ≠ none ∧
      (⟨some 7, true⟩ : ReconnectEnv).sendOk = true) ∧
    ((reconnect ⟨some 7, true⟩ ⟨some 3, ⟨[104], [53], [47], true⟩⟩).1 = false →
      (reconnect ⟨some 7, true⟩ ⟨some 3, ⟨[104], [53], [47], true⟩⟩).2.1 =
        ⟨some 3, ⟨[104], [53], [47], true⟩⟩) ∧
    ((reconnect ⟨some 7, true⟩ ⟨some 3, ⟨[104], [53], [47], true⟩⟩).1 = true →
      (reconnect ⟨some 7, true⟩ ⟨some 3, ⟨[104], [53], [47], true⟩⟩).2.1.connection =
        (⟨some 7, true⟩ : ReconnectEnv).newSock ∧
      (reconnect ⟨some 7, true⟩ ⟨some 3, ⟨[104], [53], [47], true⟩⟩).2.1.params =
        (⟨some 3, ⟨[104], [53], [47], true⟩⟩ : ClientSt).params) ∧
    (∀ c ∈ (reconnect ⟨some 7, true⟩ ⟨some 3, ⟨[104], [53], [47], true⟩⟩).2.2,
      c.prefixStr = (⟨[104], [53], [47], true⟩ : ConnParm).prefixStr ∧
      c.isPrivate = (⟨[104], [53], [47], true⟩ : ConnParm).isPrivate ∧
      (⟨some 7, true⟩ : ReconnectEnv).newSock = some c.sock) :=
  reconnect_spec ⟨some 7, true⟩ ⟨some 3, ⟨[104], [53], [47], true⟩⟩


theorem listFolders_run (homedir : List Nat) (parent : Nat) (recursive : Bool)
    (proptags : List Nat) (offset limit : Nat) (restriction : Restriction)
    (t rc : Nat) (rows : List (List TaggedPropval)) (o : List (Option Resp)) (tr : List Req) :
    listFolders homedir parent recursive proptags offset limit restriction
      { pending := some (.table t rc) :: some (.entries rows) :: some .ok :: o, trace := tr } =
      (some rows,
       { pending := o,
         trace := tr ++
           [.loadHierarchyTable homedir parent []
              (if recursive then TableFlagsDEPTH else 0) restriction,
            .queryTable homedir [] 0 t proptags offset
              (if offset ≠ 0 ∨ limit ≠ 0 ∨ rc < limit then limit else rc),
            .unloadTable homedir t] }) := by
  simp [listFolders, sendTable, sendEntries, sendEmpty, sendQ, asTable, asEntries,
    Bind.bind, Pure.pure, Monad.toBind]

theorem listFolders_run_queryFail (homedir : List Nat) (parent : Nat) (recursive : Bool)
    (proptags : List Nat) (offset limit : Nat) (restriction : Restriction)
    (t rc : Nat) (o : List (Option Resp)) (tr : List Req) :
    listFolders homedir parent recursive proptags offset limit restriction
      { pending := some (.table t rc) :: none :: o, trace := tr } =
      (none,
       { pending := o,
         trace := tr ++
           [.loadHierarchyTable homedir parent []
              (if recursive then TableFlagsDEPTH else 0) restriction,
            .queryTable homedir [] 0 t proptags offset
              (if offset ≠ 0 ∨ limit ≠ 0 ∨ rc < limit then limit else rc)] }) := by
  simp [listFolders, sendTable, sendEntries, sendEmpty, sendQ, asTable, asEntries,
    Bind.bind, Pure.pure, Monad.toBind]

theorem findFolder_run (homedir name : List Nat) (parent : Nat) (recursive : Bool)
    (fuzzyLevel : Nat) (proptags : List Nat)
    (t rc : Nat) (rows : List (List TaggedPropval)) (o : List (Option Resp)) (tr : List Req) :
    findFolder homedir name parent recursive fuzzyLevel proptags
      { pending := some (.table t rc) :: some (.entries rows) :: some .ok :: o, trace := tr } =
      (some rows,
       { pending := o,
         trace := tr ++
           [.loadHierarchyTable homedir
              (if parent ≠ 0 then parent else makeEidEx 1 PrivateFidROOT) []
              (if recursive then TableFlagsDEPTH else 0)
              (Restriction.CONTENT fuzzyLevel 0 (.ofStr PropTag.DISPLAYNAME name)),
            .queryTable homedir [] 0 t proptags 0 rc,
            .unloadTable homedir t] }) := by
  simp [findFolder, sendTable, sendEntries, sendEmpty, sendQ, asTable, asEntries,
    Bind.bind, Pure.pure, Monad.toBind]

theorem findFolder_run_queryFail (homedir name : List Nat) (parent : Nat) (recursive : Bool)
    (fuzzyLevel : Nat) (proptags : List Nat)
    (t rc : Nat) (o : List (Option Resp)) (tr : List Req) :
    findFolder homedir name parent recursive fuzzyLevel proptags
      { pending := some (.table t rc) :: none :: o, trace := tr } =
      (none,
       { pending := o,
         trace := tr ++
           [.loadHierarchyTable homedir
              (if parent ≠ 0 then parent else makeEidEx 1 PrivateFidROOT) []
              (if recursive then TableFlagsDEPTH else 0)
              (Restriction.CONTENT fuzzyLevel 0 (.ofStr PropTag.DISPLAYNAME name)),
            .queryTable homedir [] 0 t proptags 0 rc] }) := by
  simp [findFolder, sendTable, sendEntries, sendEmpty, sendQ, asTable, asEntries,
    Bind.bind, Pure.pure, Monad.toBind]

theorem getFolderMemberList_run (homedir : List Nat) (folderId : Nat)
    (t rc : Nat) (rows : List (List TaggedPropval)) (o : List (Option Resp)) (tr : List Req) :
    getFolderMemberList homedir folderId
      { pending := some (.table t rc) :: some (.entries rows) :: some .ok :: o, trace := tr } =
      (some rows,
       { pending := o,
         trace := tr ++
           [.loadPermissionTable homedir folderId 0,
            .queryTable homedir [] 0 t memberProptags 0 rc,
            .unloadTable homedir t] }) := by
  simp [getFolderMemberList, sendTable, sendEntries, sendEmpty, sendQ, asTable, asEntries,
    Bind.bind, Pure.pure, Monad.toBind]

theorem getFolderMemberList_run_queryFail (homedir : List Nat) (folderId : Nat)
    (t rc : Nat) (o : List (Option Resp)) (tr : List Req) :
    getFolderMemberList homedir folderId
      { pending := some (.table t rc) :: none :: o, trace := tr } =
      (none,
       { pending := o,
         trace := tr ++
           [.loadPermissionTable homedir folderId 0,
            .queryTable homedir [] 0 t memberProptags 0 rc] }) := by
  simp [getFolderMemberList, sendTable, sendEntries, sendEmpty, sendQ, asTable, asEntries,
    Bind.bind, Pure.pure, Monad.toBind]

theorem resyncDevice_run (homedir folderName deviceId : List Nat) (userId : Nat)
    (sf df t rc : Nat) (rows : List (List TaggedPropval)) (p : Bool)
    (o : List (Option Resp)) (tr : List Req) :
    resyncDevice homedir folderName deviceId userId
      { pending := some (.folder sf) :: some (.folder df) :: some (.table t rc) ::
          some (.entries rows) :: some .ok :: some (.deleted p) :: o, trace := tr } =
      (some (!p),
       { pending := o,
         trace := tr ++
           [.getFolderByName homedir (makeEidEx 1 PublicFidROOT) folderName,
            .getFolderByName homedir sf deviceId,
            .loadContentTable homedir 0 df [] 2 noDD,
            .queryTable homedir [] 0 t [PropTag.MID] 0 rc,
            .unloadTable homedir t,
            .deleteMessages homedir userId 0 [] df
              ((rows.map (fun row => row.filterMap
                (fun tg => if tg.tag = PropTag.MID then some tg.value.asU64 else none))).flatten)
              true] }) := by
  simp [resyncDevice, sendTable, sendEntries, sendEmpty, sendQ, asTable, asEntries,
    asFolder, asDeleted, Bind.bind, Pure.pure, Monad.toBind]

theorem unloadedTableIds_append (a b : List Req) :
    unloadedTableIds (a ++ b) = unloadedTableIds a ++ unloadedTableIds b := by
  induction a with
  | nil => simp [unloadedTableIds]
  | cons r tr ih => cases r <;> simp [unloadedTableIds, ih]

theorem loadedTableIds_append {a : List Req} {oa : List (Option Resp)}
    (b : List Req) (ob : List (Option Resp)) (h : a.length = oa.length) :
    loadedTableIds (a ++ b) (oa ++ ob) = loadedTableIds a oa ++ loadedTableIds b ob := by
  induction a generalizing oa with
  | nil =>
    cases oa with
    | nil => simp [loadedTableIds]
    | cons o os => simp at h
  | cons r tr ih =>
    cases oa with
    | nil => simp at h
    | cons o os => simp [loadedTableIds, ih (by simpa using h)]

theorem syncLoop_step (homedir : List Nat) (row : List TaggedPropval)
    (rows : List (List TaggedPropval)) (data : List (List Nat × List Nat))
    (seg : List (Option Resp)) (o : List (Option Resp)) (tr : List Req)
    (h : SegOK row seg) :
    ∃ Δ data₂, syncLoop homedir (row :: rows) data { pending := seg ++ o, trace := tr } =
      syncLoop homedir rows data₂ { pending := o, trace := tr ++ Δ } ∧
      Δ.length = seg.length ∧ unloadedTableIds Δ = loadedTableIds Δ seg := by
  cases h with
  | skip row hr =>
    refine ⟨[], data, ?_, rfl, rfl⟩
    rcases row with _ | ⟨tp0, _ | ⟨tp1, _ | ⟨tp2, rr⟩⟩⟩ <;>
      simp [syncLoop]
    rw [if_neg (hr tp0 tp1 rfl)]
  | emptyTable tp0 tp1 t rc u hcond =>
    refine ⟨[.loadContentTable homedir 0 tp0.value.asU64 [] 2 ddFilter,
             .queryTable homedir [] 0 t [PropTag.MID] 0 rc,
             .unloadTable homedir t], data, ?_, rfl, ?_⟩
    · simp [syncLoop, hcond, sendTable, sendEntries, sendEmpty, sendQ, asTable, asEntries,
        Bind.bind, Pure.pure, Monad.toBind]
    · simp [unloadedTableIds, loadedTableIds, Req.isLoad]
  | badMsg tp0 tp1 t rc msg more u hcond hm =>
    refine ⟨[.loadContentTable homedir 0 tp0.value.asU64 [] 2 ddFilter,
             .queryTable homedir [] 0 t [PropTag.MID] 0 rc,
             .unloadTable homedir t], data, ?_, rfl, ?_⟩
    · rcases msg with _ | ⟨mtp, _ | ⟨m2, mm⟩⟩ <;>
        simp [syncLoop, hcond, sendTable, sendEntries, sendEmpty, sendQ, asTable, asEntries,
          Bind.bind, Pure.pure, Monad.toBind]
      rw [if_neg (hm mtp rfl)]
    · simp [unloadedTableIds, loadedTableIds, Req.isLoad]
  | withMsg tp0 tp1 t rc mtp more u props hcond hm =>
    rcases props with _ | ⟨btp, _ | ⟨b2, bb⟩⟩
    · refine ⟨[.loadContentTable homedir 0 tp0.value.asU64 [] 2 ddFilter,
               .queryTable homedir [] 0 t [PropTag.MID] 0 rc,
               .unloadTable homedir t,
               .getMessageProperties homedir [] 0 mtp.value.asU64 [PropTag.BODY]],
         data, ?_, rfl, by simp [unloadedTableIds, loadedTableIds, Req.isLoad]⟩
      simp [syncLoop, hcond, hm, sendTable, sendEntries, sendEmpty, sendQ, asTable,
        asEntries, asPropvals, Bind.bind, Pure.pure, Monad.toBind]
    · by_cases hb : btp.tag = PropTag.BODY
      · refine ⟨[.loadContentTable homedir 0 tp0.value.asU64 [] 2 ddFilter,
                 .queryTable homedir [] 0 t [PropTag.MID] 0 rc,
                 .unloadTable homedir t,
                 .getMessageProperties homedir [] 0 mtp.value.asU64 [PropTag.BODY]],
           data ++ [(tp1.value.asStr, btp.value.asStr)], ?_, rfl,
           by simp [unloadedTableIds, loadedTableIds, Req.isLoad]⟩
        simp [syncLoop, hcond, hm, hb, sendTable, sendEntries, sendEmpty, sendQ, asTable,
          asEntries, asPropvals, Bind.bind, Pure.pure, Monad.toBind]
      · refine ⟨[.loadContentTable homedir 0 tp0.value.asU64 [] 2 ddFilter,
                 .queryTable homedir [] 0 t [PropTag.MID] 0 rc,
                 .unloadTable homedir t,
                 .getMessageProperties homedir [] 0 mtp.value.asU64 [PropTag.BODY]],
           data, ?_, rfl, by simp [unloadedTableIds, loadedTableIds, Req.isLoad]⟩
        simp [syncLoop, hcond, hm, hb, sendTable, sendEntries, sendEmpty, sendQ, asTable,
          asEntries, asPropvals, Bind.bind, Pure.pure, Monad.toBind]
    · refine ⟨[.loadContentTable homedir 0 tp0.value.asU64 [] 2 ddFilter,
               .queryTable homedir [] 0 t [PropTag.MID] 0 rc,
               .unloadTable homedir t,
               .getMessageProperties homedir [] 0 mtp.value.asU64 [PropTag.BODY]],
         data, ?_, rfl, by simp [unloadedTableIds, loadedTableIds, Req.isLoad]⟩
      simp [syncLoop, hcond, hm, sendTable, sendEntries, sendEmpty, sendQ, asTable,
        asEntries, asPropvals, Bind.bind, Pure.pure, Monad.toBind]

theorem syncLoop_balance (homedir : List Nat) {rows : List (List TaggedPropval)}
    {segs : List (List (Option Resp))} (h : List.Forall₂ SegOK rows segs)
    (data : List (List Nat × List Nat)) (o : List (Option Resp)) (tr : List Req) :
    ∃ d Δ, syncLoop homedir rows data { pending := segs.flatten ++ o, trace := tr } =
      (some d, { pending := o, trace := tr ++ Δ }) ∧
      Δ.length = segs.flatten.length ∧
      unloadedTableIds Δ = loadedTableIds Δ segs.flatten := by
  induction h generalizing data tr with
  | nil =>
    exact ⟨data, [], by simp [syncLoop, Pure.pure], by simp,
      by simp [unloadedTableIds, loadedTableIds]⟩
  | @cons row seg rows segs hseg hrest ih =>
    obtain ⟨Δ₁, data₂, hstep, hlen₁, hbal₁⟩ :=
      syncLoop_step homedir row rows data seg (segs.flatten ++ o) tr hseg
    obtain ⟨d, Δ₂, hrun, hlen₂, hbal₂⟩ := ih data₂ (tr ++ Δ₁)
    refine ⟨d, Δ₁ ++ Δ₂, ?_, by simp [hlen₁, hlen₂], ?_⟩
    · rw [show (List.flatten (seg :: segs) ++ o) = seg ++ (segs.flatten ++ o) by simp]
      rw [hstep, hrun]
      simp
    · rw [unloadedTableIds_append, List.flatten_cons,
        loadedTableIds_append Δ₂ segs.flatten (by omega), hbal₁, hbal₂]

theorem getSyncData_run (homedir folderName : List Nat) (f t rc : Nat)
    (rows : List (List TaggedPropval)) (rest : List (Option Resp)) (tr : List Req) :
    getSyncData homedir folderName
      { pending := some (.folder f) :: some (.table t rc) :: some (.entries rows) ::
          some .ok :: rest, trace := tr } =
      syncLoop homedir rows []
        { pending := rest,
          trace := tr ++
            [.getFolderByName homedir (makeEidEx 1 PublicFidROOT) folderName,
             .loadHierarchyTable homedir f [] 0 .xnull,
             .queryTable homedir [] 0 t [PropTag.FOLDERID, PropTag.DISPLAYNAME] 0 rc,
             .unloadTable homedir t] } := by
  simp [getSyncData, sendTable, sendEntries, sendEmpty, sendQ, asTable, asEntries, asFolder,
    Bind.bind, Monad.toBind]

theorem getSyncData_balance (homedir folderName : List Nat) (f t rc : Nat)
    (rows : List (List TaggedPropval)) (segs : List (List (Option Resp)))
    (o : List (Option Resp)) (tr : List Req) (hsegs : List.Forall₂ SegOK rows segs) :
    ∃ d Δ, getSyncData homedir folderName
      { pending := some (.folder f) :: some (.table t rc) :: some (.entries rows) ::
          some .ok :: (segs.flatten ++ o), trace := tr } =
      (some d, { pending := o, trace := tr ++ Δ }) ∧
      unloadedTableIds Δ =
        loadedTableIds Δ (some (.folder f) :: some (.table t rc) ::
          some (.entries rows) :: some .ok :: segs.flatten) := by
  obtain ⟨d, Δ, hrun, hlen, hbal⟩ := syncLoop_balance homedir hsegs [] o
    (tr ++ [.getFolderByName homedir (makeEidEx 1 PublicFidROOT) folderName,
      .loadHierarchyTable homedir f [] 0 .xnull,
      .queryTable homedir [] 0 t [PropTag.FOLDERID, PropTag.DISPLAYNAME] 0 rc,
      .unloadTable homedir t])
  refine ⟨d,
    [.getFolderByName homedir (makeEidEx 1 PublicFidROOT) folderName,
     .loadHierarchyTable homedir f [] 0 .xnull,
     .queryTable homedir [] 0 t [PropTag.FOLDERID, PropTag.DISPLAYNAME] 0 rc,
     .unloadTable homedir t] ++ Δ, ?_, ?_⟩
  · rw [getSyncData_run homedir folderName f t rc rows (segs.flatten ++ o) tr, hrun]
    simp
  · rw [unloadedTableIds_append,
      show (some (Resp.folder f) :: some (.table t rc) :: some (.entries rows) ::
        some Resp.ok :: segs.flatten : List (Option Resp)) =
        [some (.folder f), some (.table t rc), some (.entries rows), some .ok] ++
          segs.flatten by simp,
      loadedTableIds_append Δ segs.flatten (by simp), hbal]
    simp [unloadedTableIds, loadedTableIds, Req.isLoad]

/-- **C1, counterexample**: a `listFolders` invocation whose `QueryTable`
send throws (oracle entry `none`) sends no `UnloadTable` at all — the
operation aborts with the hierarchy-table handle 9 loaded but never
unloaded, contradicting the claim that the UnloadTable is sent even when
the QueryTable step fails. -/
theorem table_lifecycle_counterexample :
    (listFolders [104] 5 false [1] 0 0 .xnull
      { pending := [some (.table 9 3), none], trace := [] }).2.trace =
      [.loadHierarchyTable [104] 5 [] 0 .xnull,
       .queryTable [104] [] 0 9 [1] 0 3] ∧
    (listFolders [104] 5 false [1] 0 0 .xnull
      { pending := [some (.table 9 3), none], trace := [] }).1 = none ∧
    unloadedTableIds (listFolders [104] 5 false [1] 0 0 .xnull
      { pending := [some (.table 9 3), none], trace := [] }).2.trace = [] ∧
    loadedTableIds (listFolders [104] 5 false [1] 0 0 .xnull
      { pending := [some (.table 9 3), none], trace := [] }).2.trace
      [some (.table 9 3), none] = [9] :=
  ⟨rfl, rfl, rfl, rfl⟩

/-- **C1, amended**: on successful invocations, `listFolders`, `findFolder`
and `getFolderMemberList` send exactly `Load…Table, QueryTable, UnloadTable`
with the `UnloadTable` naming the loaded handle, and every successful
`getSyncData` run unloads exactly the handles its oracle granted, in order;
but when the `QueryTable` send throws, the operation aborts and the
`UnloadTable` is NOT sent (no try/catch exists in src/queries.cpp), so the
handle leaks to server-side garbage collection. -/
theorem table_lifecycle :
    (∀ (homedir : List Nat) (parent : Nat) (recursive : Bool) (proptags : List Nat)
      (offset limit : Nat) (restriction : Restriction) (t rc : Nat)
      (rows : List (List TaggedPropval)) (o : List (Option Resp)) (tr : List Req),
      listFolders homedir parent recursive proptags offset limit restriction
        { pending := some (.table t rc) :: some (.entries rows) :: some .ok :: o,
          trace := tr } =
      (some rows, { pending := o, trace := tr ++
        [.loadHierarchyTable homedir parent []
           (if recursive then TableFlagsDEPTH else 0) restriction,
         .queryTable homedir [] 0 t proptags offset
           (if offset ≠ 0 ∨ limit ≠ 0 ∨ rc < limit then limit else rc),
         .unloadTable homedir t] })) ∧
    (∀ (homedir name : List Nat) (parent : Nat) (recursive : Bool) (fuzzyLevel : Nat)
      (proptags : List Nat) (t rc : Nat) (rows : List (List TaggedPropval))
      (o : List (Option Resp)) (tr : List Req),
      findFolder homedir name parent recursive fuzzyLevel proptags
        { pending := some (.table t rc) :: some (.entries rows) :: some .ok :: o,
          trace := tr } =
      (some rows, { pending := o, trace := tr ++
        [.loadHierarchyTable homedir
           (if parent ≠ 0 then parent else makeEidEx 1 PrivateFidROOT) []
           (if recursive then TableFlagsDEPTH else 0)
           (Restriction.CONTENT fuzzyLevel 0 (.ofStr PropTag.DISPLAYNAME name)),
         .queryTable homedir [] 0 t proptags 0 rc,
         .unloadTable homedir t] })) ∧
    (∀ (homedir : List Nat) (folderId t rc : Nat) (rows : List (List TaggedPropval))
      (o : List (Option Resp)) (tr : List Req),
      getFolderMemberList homedir folderId
        { pending := some (.table t rc) :: some (.entries rows) :: some .ok :: o,
          trace := tr } =
      (some rows, { pending := o, trace := tr ++
        [.loadPermissionTable homedir folderId 0,
         .queryTable homedir [] 0 t memberProptags 0 rc,
         .unloadTable homedir t] })) ∧
    (∀ (homedir folderName : List Nat) (f t rc : Nat)
      (rows : List (List TaggedPropval)) (segs : List (List (Option Resp)))
      (o : List (Option Resp)) (tr : List Req), List.Forall₂ SegOK rows segs →
      ∃ d Δ, getSyncData homedir folderName
        { pending := some (.folder f) :: some (.table t rc) :: some (.entries rows) ::
            some .ok :: (segs.flatten ++ o), trace := tr } =
        (some d, { pending := o, trace := tr ++ Δ }) ∧
        unloadedTableIds Δ =
          loadedTableIds Δ (some (.folder f) :: some (.table t rc) ::
            some (.entries rows) :: some .ok :: segs.flatten)) ∧
    (∀ (homedir : List Nat) (parent : Nat) (recursive : Bool) (proptags : List Nat)
      (offset limit : Nat) (restriction : Restriction) (t rc : Nat)
      (o : List (Option Resp)) (tr : List Req),
      listFolders homedir parent recursive proptags offset limit restriction
        { pending := some (.table t rc) :: none :: o, trace := tr } =
      (none, { pending := o, trace := tr ++
        [.loadHierarchyTable homedir parent []
           (if recursive then TableFlagsDEPTH else 0) restriction,
         .queryTable homedir [] 0 t proptags offset
           (if offset ≠ 0 ∨ limit ≠ 0 ∨ rc < limit then limit else rc)] })) ∧
    (∀ (homedir name : List Nat) (parent : Nat) (recursive : Bool) (fuzzyLevel : Nat)
      (proptags : List Nat) (t rc : Nat) (o : List (Option Resp)) (tr : List Req),
      findFolder homedir name parent recursive fuzzyLevel proptags
        { pending := some (.table t rc) :: none :: o, trace := tr } =
      (none, { pending := o, trace := tr ++
        [.loadHierarchyTable homedir
           (if parent ≠ 0 then parent else makeEidEx 1 PrivateFidROOT) []
           (if recursive then TableFlagsDEPTH else 0)
           (Restriction.CONTENT fuzzyLevel 0 (.ofStr PropTag.DISPLAYNAME name)),
         .queryTable homedir [] 0 t proptags 0 rc] })) ∧
    (∀ (homedir : List Nat) (folderId t rc : Nat) (o : List (Option Resp))
      (tr : List Req),
      getFolderMemberList homedir folderId
        { pending := some (.table t rc) :: none :: o, trace := tr } =
      (none, { pending := o, trace := tr ++
        [.loadPermissionTable homedir folderId 0,
         .queryTable homedir [] 0 t memberProptags 0 rc] })) :=
  ⟨listFolders_run, findFolder_run, getFolderMemberList_run,
   fun homedir folderName f t rc rows segs o tr hsegs =>
     getSyncData_balance homedir folderName f t rc rows segs o tr hsegs,
   listFolders_run_queryFail, findFolder_run_queryFail, getFolderMemberList_run_queryFail⟩

/-- Witness for C1 at a concrete input: a `getSyncData` run with one
well-shaped device subfolder whose oracle segment carries one MID message;
the hierarchy handle 4 and the content handle 7 are both unloaded. -/
theorem table_lifecycle_witness :
    ∃ d Δ, getSyncData [104] [83]
      { pending := some (.folder 2) :: some (.table 4 1) ::
          some (.entries [[⟨PropTag.FOLDERID, 0x14, .u64 77⟩,
            ⟨PropTag.DISPLAYNAME, 0x1f, .str [68]⟩]]) :: some .ok ::
          ([[some (.table 7 1), some (.entries [[⟨PropTag.MID, 0x14, .u64 9⟩]]),
             some .ok, some (.propvals [⟨PropTag.BODY, 0x1f, .str [98]⟩])]].flatten ++ []),
        trace := [] } =
      (some d, { pending := [], trace := [] ++ Δ }) ∧
      unloadedTableIds Δ =
        loadedTableIds Δ (some (.folder 2) :: some (.table 4 1) ::
          some (.entries [[⟨PropTag.FOLDERID, 0x14, .u64 77⟩,
            ⟨PropTag.DISPLAYNAME, 0x1f, .str [68]⟩]]) :: some .ok ::
          [[some (.table 7 1), some (.entries [[⟨PropTag.MID, 0x14, .u64 9⟩]]),
            some .ok, some (.propvals [⟨PropTag.BODY, 0x1f, .str [98]⟩])]].flatten) :=
  table_lifecycle.2.2.2.1 [104] [83] 2 4 1
    [[⟨PropTag.FOLDERID, 0x14, .u64 77⟩, ⟨PropTag.DISPLAYNAME, 0x1f, .str [68]⟩]]
    [[some (.table 7 1), some (.entries [[⟨PropTag.MID, 0x14, .u64 9⟩]]),
      some .ok, some (.propvals [⟨PropTag.BODY, 0x1f, .str [98]⟩])]] [] []
    (List.Forall₂.cons
      (SegOK.withMsg ⟨PropTag.FOLDERID, 0x14, .u64 77⟩ ⟨PropTag.DISPLAYNAME, 0x1f, .str [68]⟩
        7 1 ⟨PropTag.MID, 0x14, .u64 9⟩ [] .ok [⟨PropTag.BODY, 0x1f, .str [98]⟩]
        ⟨rfl, rfl⟩ rfl)
      List.Forall₂.nil)

/-- **C6**: in `listFolders`, the `QueryTable` request's row limit is the
server-reported `rowCount` exactly when the caller passed `offset == 0` and
`limit == 0`, and the caller's `limit` verbatim otherwise (the third
disjunct `rowCount < limit` of the source expression is redundant: it is
false whenever `offset` and `limit` are both 0). -/
theorem listFolders_effective_limit (homedir : List Nat) (parent : Nat)
    (recursive : Bool) (proptags : List Nat) (offset limit : Nat)
    (restriction : Restriction) (t rc : Nat) (rows : List (List TaggedPropval))
    (o : List (Option Resp)) (tr : List Req) :
    listFolders homedir parent recursive proptags offset limit restriction
      { pending := some (.table t rc) :: some (.entries rows) :: some .ok :: o,
        trace := tr } =
    (some rows, { pending := o, trace := tr ++
      [.loadHierarchyTable homedir parent []
         (if recursive then TableFlagsDEPTH else 0) restriction,
       .queryTable homedir [] 0 t proptags offset
         (if offset = 0 ∧ limit = 0 then rc else limit),
       .unloadTable homedir t] }) := by
  rw [listFolders_run]
  have : (if offset ≠ 0 ∨ limit ≠ 0 ∨ rc < limit then limit else rc) =
      (if offset = 0 ∧ limit = 0 then rc else limit) := by
    split_ifs <;> omega
  rw [this]

/-- **C7, counterexample**: the content-table filter of `resyncDevice` is
`PROPERTY(NE, DISPLAYNAME, "devicedata")` (src/queries.cpp:551), not the
`NOT(PROPERTY(EQ, DISPLAYNAME, "devicedata"))` restriction the claim
states; the two are distinct restriction trees and serialize to different
wire bytes.  The trace of a concrete successful run carries `noDD`. -/
theorem resyncDevice_restriction_counterexample :
    (resyncDevice [104] [83] [68] 42
      { pending := [some (.folder 1), some (.folder 2), some (.table 3 0),
          some (.entries []), some .ok, some (.deleted false)], trace := [] }).2.trace =
      [.getFolderByName [104] (makeEidEx 1 PublicFidROOT) [83],
       .getFolderByName [104] 1 [68],
       .loadContentTable [104] 0 2 [] 2 noDD,
       .queryTable [104] [] 0 3 [PropTag.MID] 0 0,
       .unloadTable [104] 3,
       .deleteMessages [104] 42 0 [] 2 [] true] ∧
    noDD = Restriction.rProp Op.NE PropTag.DISPLAYNAME
      (.ofStr PropTag.DISPLAYNAME devicedataBytes) ∧
    ¬noDD = Restriction.NOT (Restriction.PROPERTY Op.EQ 0
      (.ofStr PropTag.DISPLAYNAME devicedataBytes)) :=
  ⟨rfl, rfl, fun h => Restriction.noConfusion h⟩

/-- **C7, amended**: `resyncDevice` locates the device folder under the
named sync folder, loads its content table filtered with
`PROPERTY(NE, DISPLAYNAME, "devicedata")` (not `NOT(PROPERTY(EQ, …))`),
queries MID, unloads, gathers all MID values from the queried rows, issues
`DeleteMessages(userId, …, hard = true)` for them, and returns the negation
of the response's partial flag. -/
theorem resyncDevice_spec :
    (∀ (homedir folderName deviceId : List Nat) (userId sf df t rc : Nat)
      (rows : List (List TaggedPropval)) (p : Bool) (o : List (Option Resp))
      (tr : List Req),
      resyncDevice homedir folderName deviceId userId
        { pending := some (.folder sf) :: some (.folder df) :: some (.table t rc) ::
            some (.entries rows) :: some .ok :: some (.deleted p) :: o, trace := tr } =
      (some (!p),
       { pending := o,
         trace := tr ++
           [.getFolderByName homedir (makeEidEx 1 PublicFidROOT) folderName,
            .getFolderByName homedir sf deviceId,
            .loadContentTable homedir 0 df [] 2 noDD,
            .queryTable homedir [] 0 t [PropTag.MID] 0 rc,
            .unloadTable homedir t,
            .deleteMessages homedir userId 0 [] df
              ((rows.map (fun row => row.filterMap
                (fun tg => if tg.tag = PropTag.MID then some tg.value.asU64 else none))).flatten)
              true] })) ∧
    noDD = Restriction.PROPERTY Op.NE 0 (.ofStr PropTag.DISPLAYNAME devicedataBytes) :=
  ⟨resyncDevice_run, rfl⟩


theorem getD_append_cons {α : Type} (l₁ : List α) (x : α) (l₂ : List α) (d : α) :
    (l₁ ++ x :: l₂).getD l₁.length d = x := by
  induction l₁ with
  | nil => simp [List.getD]
  | cons a l ih => simpa [List.getD] using ih

theorem getD_append_lt {α : Type} (l₁ l₂ : List α) (d : α) (i : Nat) (hi : i < l₁.length) :
    (l₁ ++ l₂).getD i d = l₁.getD i d := by
  induction l₁ generalizing i with
  | nil => simp at hi
  | cons a l ih =>
    cases i with
    | zero => simp [List.getD]
    | succ k => simpa [List.getD] using ih k (by simpa using hi)

theorem getD_set_ne {α : Type} (l : List α) (j i : Nat) (x d : α) (hne : i ≠ j) :
    (l.set j x).getD i d = l.getD i d := by
  induction l generalizing i j with
  | nil => simp
  | cons a l ih =>
    cases j with
    | zero =>
      cases i with
      | zero => exact absurd rfl hne
      | succ k => simp [List.getD]
    | succ m =>
      cases i with
      | zero => simp [List.getD]
      | succ k => simpa [List.getD] using ih m k (fun hc => hne (by omega))

theorem heap_get_some_lt {h : Heap} {i : Nat} {b : Buf} (hg : h.get i = some b) :
    i < h.size := by
  by_contra hc
  simp only [Heap.size] at hc
  rw [Heap.get, List.getD_eq_default] at hg
  · exact Option.noConfusion hg
  · omega

theorem allocStrs_extends (h : Heap) (ss : List (List Nat)) :
    ∃ ex, (allocStrs h ss).1 = h ++ ex := by
  induction ss generalizing h with
  | nil => exact ⟨[], by simp [allocStrs]⟩
  | cons s ss ih =>
    obtain ⟨ex, hex⟩ := ih (h.alloc (.bytes s)).1
    exact ⟨[some (.bytes s)] ++ ex, by
      simpa [allocStrs, Heap.alloc, List.append_assoc] using hex⟩

theorem allocStrs_size (h : Heap) (ss : List (List Nat)) :
    (allocStrs h ss).1.length = h.length + ss.length := by
  induction ss generalizing h with
  | nil => simp [allocStrs]
  | cons s ss ih =>
    simp [allocStrs, Heap.alloc, ih]
    omega

theorem allocStrs_ptrs_ge (h : Heap) (ss : List (List Nat)) :
    ∀ p ∈ (allocStrs h ss).2, ∃ i, p = some i ∧ h.length ≤ i := by
  induction ss generalizing h with
  | nil => simp [allocStrs]
  | cons s ss ih =>
    intro p hp
    simp only [allocStrs, List.mem_cons] at hp
    rcases hp with rfl | hp
    · exact ⟨h.length, rfl, le_refl _⟩
    · obtain ⟨i, rfl, hi⟩ := ih (h.alloc (.bytes s)).1 p hp
      have hlen : List.length (h.alloc (Buf.bytes s)).1 = h.length + 1 := by
        simp [Heap.alloc]
      exact ⟨i, rfl, by omega⟩

theorem derefAll_allocStrs (h : Heap) (ss : List (List Nat)) (ex : List (Option Buf)) :
    derefAll ((allocStrs h ss).1 ++ ex) (allocStrs h ss).2 = some ss := by
  induction ss generalizing h with
  | nil => simp [allocStrs, derefAll]
  | cons s ss ih =>
    obtain ⟨ex₂, hex₂⟩ := allocStrs_extends (h.alloc (.bytes s)).1 ss
    have hget : ((allocStrs (h.alloc (.bytes s)).1 ss).1 ++ ex).get h.length =
        some (.bytes s) := by
      rw [hex₂, Heap.get]
      have : (h.alloc (Buf.bytes s)).1 ++ ex₂ ++ ex = h ++ some (Buf.bytes s) :: (ex₂ ++ ex) := by
        simp [Heap.alloc]
      rw [this, getD_append_cons]
    have h2 : (h.alloc (Buf.bytes s)).2 = List.length h := rfl
    simp only [allocStrs, derefAll, h2, hget, ih (h.alloc (.bytes s)).1]

theorem derefAll_agree {h₁ h₂ : Heap} {ps : List (Option Nat)}
    (hag : ∀ i ∈ ps.filterMap id, h₂.get i = h₁.get i) :
    derefAll h₂ ps = derefAll h₁ ps := by
  induction ps with
  | nil => rfl
  | cons p ps ih =>
    cases p with
    | none => rfl
    | some i =>
      have hi : h₂.get i = h₁.get i := hag i (by simp)
      have hrest := ih (fun j hj => hag j (by simp [hj]))
      simp [derefAll, hi, hrest]

theorem derefAll_some_lt {h : Heap} {ps : List (Option Nat)} {ss : List (List Nat)}
    (hd : derefAll h ps = some ss) : ∀ i ∈ ps.filterMap id, i < h.length := by
  induction ps generalizing ss with
  | nil => simp
  | cons p ps ih =>
    cases p with
    | none => simp [derefAll] at hd
    | some j =>
      intro i hi
      simp only [derefAll] at hd
      rcases hg : h.get j with _ | buf <;> rw [hg] at hd
      · exact Option.noConfusion hd
      · cases buf with
        | bytes s =>
          rcases hrest : derefAll h ps with _ | ss₂ <;> rw [hrest] at hd
          · exact Option.noConfusion hd
          · simp only [List.filterMap_cons, id] at hi
            rcases List.mem_cons.mp hi with rfl | hi₂
            · simpa [Heap.size] using heap_get_some_lt hg
            · exact ih hrest i hi₂
        | strptrs ps₂ => exact Option.noConfusion hd
        | binptrs ps₂ => exact Option.noConfusion hd

theorem foldl_freeBuf_get (ps : List (Option Nat)) (h : Heap) (i : Nat)
    (hi : ∀ j ∈ ps.filterMap id, ¬i = j) :
    (ps.foldl (fun a p => match p with | some j => a.freeBuf j | none => a) h).get i =
      h.get i := by
  induction ps generalizing h with
  | nil => rfl
  | cons p ps ih =>
    cases p with
    | none => exact ih h (fun j hj => hi j (by simpa using hj))
    | some j =>
      have hj : ¬i = j := hi j (by simp)
      have := ih (h.freeBuf j) (fun k hk => hi k (by simp [hk]))
      rw [List.foldl_cons, this, Heap.freeBuf, Heap.get, Heap.get, getD_set_ne _ _ _ _ _ hj]

theorem freeElems_get (h : Heap) (buf : Option Buf) (i : Nat)
    (hi : ∀ j ∈ (match buf with
      | some (.strptrs ps) => ps.filterMap id
      | some (.binptrs ps) => ps.filterMap id
      | _ => []), ¬i = j) :
    (freeElems h buf).get i = h.get i := by
  match buf with
  | none => rfl
  | some (.bytes s) => rfl
  | some (.strptrs ps) => exact foldl_freeBuf_get ps h i hi
  | some (.binptrs ps) => exact foldl_freeBuf_get ps h i hi

theorem copy_owned_str {h : Heap} {tg ty : Nat} {b : Nat} {s : List Nat}
    (hstr : ty = STRING ∨ ty = WSTRING) (hg : h.get b = some (.bytes s)) :
    ∃ h₂ tp₂, copyTPH h ⟨tg, ty, .ptr (some b), true⟩ = some (h₂, tp₂) ∧
      tp₂.tag = tg ∧ tp₂.type = ty ∧ tp₂.owned = true ∧
      readTPH h₂ tp₂ = readTPH h ⟨tg, ty, .ptr (some b), true⟩ ∧
      (∀ i ∈ bufsOf h₂ tp₂, h.length ≤ i) ∧
      (∀ i ∈ bufsOf h ⟨tg, ty, .ptr (some b), true⟩, i < h.length) ∧
      readTPH (freeTPH h₂ ⟨tg, ty, .ptr (some b), true⟩) tp₂ =
        readTPH h ⟨tg, ty, .ptr (some b), true⟩ := by
  have hblt : b < h.length := by simpa [Heap.size] using heap_get_some_lt hg
  have hg₂ : (h ++ [some (Buf.bytes s)]).get h.length = some (.bytes s) := by
    rw [Heap.get, show h ++ [some (Buf.bytes s)] = h ++ some (Buf.bytes s) :: [] by simp,
      getD_append_cons]
  have hgold : (h ++ [some (Buf.bytes s)]).get b = h.get b := by
    rw [Heap.get, Heap.get, getD_append_lt _ _ _ _ hblt]
  refine ⟨h ++ [some (.bytes s)], ⟨tg, ty, .ptr (some h.length), true⟩, ?_, rfl, rfl, rfl,
    ?_, ?_, ?_, ?_⟩
  · rcases hstr with rfl | rfl <;>
      simp [copyTPH, copyValueH, hg, Heap.alloc]
  · rcases hstr with rfl | rfl <;>
      simp [readTPH, hg, hg₂]
  · intro i hi
    rcases hstr with rfl | rfl <;>
      simp [bufsOf, hg₂] at hi <;> omega
  · intro i hi
    rcases hstr with rfl | rfl <;>
      simp [bufsOf, hg] at hi <;> omega
  · have hfree : freeTPH (h ++ [some (Buf.bytes s)]) ⟨tg, ty, .ptr (some b), true⟩ =
        (h ++ [some (Buf.bytes s)]).freeBuf b := by
      rcases hstr with rfl | rfl <;> simp [freeTPH]
    rw [hfree]
    have hgf : ((h ++ [some (Buf.bytes s)]).freeBuf b).get h.length =
        some (.bytes s) := by
      rw [Heap.freeBuf, Heap.get, getD_set_ne _ _ _ _ _ (by omega)]
      exact hg₂
    rcases hstr with rfl | rfl <;>
      simp [readTPH, hg, hgf]

theorem copy_owned_flat {h : Heap} {tg ty : Nat} {b : Nat} {s : List Nat}
    (hstr : ¬(ty = STRING ∨ ty = WSTRING)) (hsar : ¬(ty = STRING_ARRAY ∨ ty = WSTRING_ARRAY))
    (hnb : ¬ty = BINARY_ARRAY) (hiar : isArrayType ty = true)
    (hg : h.get b = some (.bytes s)) :
    ∃ h₂ tp₂, copyTPH h ⟨tg, ty, .ptr (some b), true⟩ = some (h₂, tp₂) ∧
      tp₂.tag = tg ∧ tp₂.type = ty ∧ tp₂.owned = true ∧
      readTPH h₂ tp₂ = readTPH h ⟨tg, ty, .ptr (some b), true⟩ ∧
      (∀ i ∈ bufsOf h₂ tp₂, h.length ≤ i) ∧
      (∀ i ∈ bufsOf h ⟨tg, ty, .ptr (some b), true⟩, i < h.length) ∧
      readTPH (freeTPH h₂ ⟨tg, ty, .ptr (some b), true⟩) tp₂ =
        readTPH h ⟨tg, ty, .ptr (some b), true⟩ := by
  obtain ⟨hs1, hs2⟩ : ty ≠ 30 ∧ ty ≠ 31 := by simpa [not_or] using hstr
  obtain ⟨hs3, hs4⟩ : ty ≠ 4126 ∧ ty ≠ 4127 := by simpa [not_or] using hsar
  have hs5 : ty ≠ 4354 := by simpa using hnb
  have hblt : b < h.length := by simpa [Heap.size] using heap_get_some_lt hg
  have hg₂ : (h ++ [some (Buf.bytes s)]).get h.length = some (.bytes s) := by
    rw [Heap.get, show h ++ [some (Buf.bytes s)] = h ++ some (Buf.bytes s) :: [] by simp,
      getD_append_cons]
  have hgold : (h ++ [some (Buf.bytes s)]).get b = h.get b := by
    rw [Heap.get, Heap.get, getD_append_lt _ _ _ _ hblt]
  refine ⟨h ++ [some (.bytes s)], ⟨tg, ty, .ptr (some h.length), true⟩, ?_, rfl, rfl, rfl,
    ?_, ?_, ?_, ?_⟩
  · simp [copyTPH, copyValueH, hs1, hs2, hs3, hs4, hs5, hiar, hg, Heap.alloc]
  · simp [readTPH, hs1, hs2, hs3, hs4, hs5, hg, hg₂]
  · intro i hi
    simp [bufsOf, hg₂] at hi
    omega
  · intro i hi
    simp [bufsOf, hg] at hi
    omega
  · have hfree : freeTPH (h ++ [some (Buf.bytes s)]) ⟨tg, ty, .ptr (some b), true⟩ =
        (h ++ [some (Buf.bytes s)]).freeBuf b := by
      simp [freeTPH, hs1, hs2, hs3, hs4, hs5, hiar]
    rw [hfree]
    have hgf : ((h ++ [some (Buf.bytes s)]).freeBuf b).get h.length =
        some (.bytes s) := by
      rw [Heap.freeBuf, Heap.get, getD_set_ne _ _ _ _ _ (by omega)]
      exact hg₂
    simp [readTPH, hs1, hs2, hs3, hs4, hs5, hg, hgf]

theorem copy_owned_strarray {h : Heap} {tg ty : Nat} {b : Nat} {ps : List (Option Nat)}
    {ss : List (List Nat)}
    (hsar : ty = STRING_ARRAY ∨ ty = WSTRING_ARRAY)
    (hg : h.get b = some (.strptrs ps)) (hd : derefAll h ps = some ss) :
    ∃ h₂ tp₂, copyTPH h ⟨tg, ty, .ptr (some b), true⟩ = some (h₂, tp₂) ∧
      tp₂.tag = tg ∧ tp₂.type = ty ∧ tp₂.owned = true ∧
      readTPH h₂ tp₂ = readTPH h ⟨tg, ty, .ptr (some b), true⟩ ∧
      (∀ i ∈ bufsOf h₂ tp₂, h.length ≤ i) ∧
      (∀ i ∈ bufsOf h ⟨tg, ty, .ptr (some b), true⟩, i < h.length) ∧
      readTPH (freeTPH h₂ ⟨tg, ty, .ptr (some b), true⟩) tp₂ =
        readTPH h ⟨tg, ty, .ptr (some b), true⟩ := by
  have hblt : b < h.length := by simpa [Heap.size] using heap_get_some_lt hg
  obtain ⟨ex, hex⟩ := allocStrs_extends h ss
  -- the copy's heap and outer buffer id
  set r := allocStrs h ss with hr
  have hid : (r.1.alloc (.strptrs r.2)).2 = r.1.length := rfl
  have hh₂ : (r.1.alloc (.strptrs r.2)).1 = r.1 ++ [some (.strptrs r.2)] := rfl
  have hsize : r.1.length = h.length + ss.length := allocStrs_size h ss
  -- reading the fresh outer buffer
  have hgout : (r.1 ++ [some (Buf.strptrs r.2)]).get r.1.length = some (.strptrs r.2) := by
    rw [Heap.get, show r.1 ++ [some (Buf.strptrs r.2)] =
      r.1 ++ some (Buf.strptrs r.2) :: [] by simp, getD_append_cons]
  -- dereferencing the fresh element buffers
  have hderef : derefAll (r.1 ++ [some (Buf.strptrs r.2)]) r.2 = some ss :=
    derefAll_allocStrs h ss [some (.strptrs r.2)]
  -- the old outer buffer is still readable in the extended heap
  have hgold : (r.1 ++ [some (Buf.strptrs r.2)]).get b = h.get b := by
    rw [hex, Heap.get, Heap.get, show h ++ ex ++ [some (Buf.strptrs r.2)] =
      h ++ (ex ++ [some (Buf.strptrs r.2)]) by simp, getD_append_lt _ _ _ _ hblt]
  -- fresh pointer array elements are ≥ h.length
  have hfresh : ∀ i ∈ r.2.filterMap id, h.length ≤ i := by
    intro i hi
    obtain ⟨p, hp, hpi⟩ := List.mem_filterMap.mp hi
    obtain ⟨j, rfl, hj⟩ := allocStrs_ptrs_ge h ss p hp
    cases hpi
    exact hj
  -- old pointer array elements are < h.length
  have hold : ∀ i ∈ ps.filterMap id, i < h.length := derefAll_some_lt hd
  refine ⟨r.1 ++ [some (.strptrs r.2)], ⟨tg, ty, .ptr (some r.1.length), true⟩, ?_, rfl,
    rfl, rfl, ?_, ?_, ?_, ?_⟩
  · rcases hsar with rfl | rfl <;>
      simp [copyTPH, copyValueH, hg, hd, Heap.alloc, ← hr]
  · rcases hsar with rfl | rfl <;>
      simp [readTPH, hg, hd, hgout, hderef]
  · intro i hi
    rcases hsar with rfl | rfl <;>
      simp only [bufsOf, hgout, List.mem_cons] at hi <;>
      rcases hi with rfl | hi
    · omega
    · exact le_trans (by omega) (hfresh i hi)
    · omega
    · exact le_trans (by omega) (hfresh i hi)
  · intro i hi
    rcases hsar with rfl | rfl <;>
      simp only [bufsOf, hg, List.mem_cons] at hi <;>
      rcases hi with rfl | hi
    · exact hblt
    · exact hold i hi
    · exact hblt
    · exact hold i hi
  · -- freeing the original touches only indices < h.length
    have hfree : freeTPH (r.1 ++ [some (Buf.strptrs r.2)]) ⟨tg, ty, .ptr (some b), true⟩ =
        (freeElems (r.1 ++ [some (Buf.strptrs r.2)])
          ((r.1 ++ [some (Buf.strptrs r.2)]).get b)).freeBuf b := by
      rcases hsar with rfl | rfl <;> simp [freeTPH]
    rw [hfree]
    have hagree : ∀ i, h.length ≤ i →
        ((freeElems (r.1 ++ [some (Buf.strptrs r.2)])
          ((r.1 ++ [some (Buf.strptrs r.2)]).get b)).freeBuf b).get i =
        (r.1 ++ [some (Buf.strptrs r.2)]).get i := by
      intro i hi
      rw [Heap.freeBuf, Heap.get, getD_set_ne _ _ _ _ _ (by omega)]
      rw [hgold, hg]
      exact freeElems_get _ _ i (by
        intro j hj
        simp only at hj
        have := hold j hj
        omega)
    have hgout₂ :
        ((freeElems (r.1 ++ [some (Buf.strptrs r.2)])
          ((r.1 ++ [some (Buf.strptrs r.2)]).get b)).freeBuf b).get r.1.length =
          some (.strptrs r.2) := by
      rw [hagree r.1.length (by omega)]
      exact hgout
    have hderef₂ :
        derefAll ((freeElems (r.1 ++ [some (Buf.strptrs r.2)])
          ((r.1 ++ [some (Buf.strptrs r.2)]).get b)).freeBuf b) r.2 = some ss := by
      rw [derefAll_agree (fun j hj => hagree j (hfresh j hj))]
      exact hderef
    rcases hsar with rfl | rfl <;>
      simp [readTPH, hg, hd, hgout₂, hderef₂]

/-- **C8, counterexample**: a non-owning (view) propval falsifies
"copy construction produces a deep copy whose heap buffers are independent
of the source": `copyValue` shares the pointer when `!tp.owned`
(src/structures.cpp:608), so the copy references the same buffer 0. -/
theorem propval_copy_counterexample :
    copyTPH [some (.bytes [97])] ⟨0x3001001f, 0x1f, .ptr (some 0), false⟩ =
      some ([some (.bytes [97])], ⟨0x3001001f, 0x1f, .ptr (some 0), false⟩) ∧
    bufsOf [some (.bytes [97])] ⟨0x3001001f, 0x1f, .ptr (some 0), false⟩ = [0] :=
  ⟨rfl, rfl⟩

/-- **C8, amended**: move construction/assignment transfers the value and
leaves the source holding no buffer; copying a non-owning view shares the
pointer (not an independent deep copy) but destroying the view original
frees nothing, so the copy stays valid; copying an owning propval (of any
type except BINARY_ARRAY, whose copy loop reads uninitialized memory at
src/structures.cpp:623) allocates only fresh buffers — disjoint from every
pre-existing buffer of the source — with equal content, and destroying the
original leaves the copy's content unchanged. -/
theorem propval_copy_move_spec :
    (∀ tp : TPH, moveTPH tp =
      (⟨tp.tag, tp.type, tp.value, tp.owned⟩, ⟨tp.tag, tp.type, tp.value.zeroed, tp.owned⟩) ∧
      ∀ h : Heap, bufsOf h ⟨tp.tag, tp.type, tp.value.zeroed, tp.owned⟩ = []) ∧
    (∀ (h : Heap) (tp : TPH), tp.owned = false →
      copyTPH h tp = some (h, tp) ∧ freeTPH h tp = h) ∧
    (∀ (h : Heap) (tp : TPH), tp.owned = true → wfTPH h tp = true →
      ¬tp.type = BINARY_ARRAY →
      ∃ h₂ tp₂, copyTPH h tp = some (h₂, tp₂) ∧
        tp₂.tag = tp.tag ∧ tp₂.type = tp.type ∧ tp₂.owned = true ∧
        readTPH h₂ tp₂ = readTPH h tp ∧
        (∀ i ∈ bufsOf h₂ tp₂, h.length ≤ i) ∧
        (∀ i ∈ bufsOf h tp, i < h.length) ∧
        readTPH (freeTPH h₂ tp) tp₂ = readTPH h tp) := by
  refine ⟨?_, ?_, ?_⟩
  · intro tp
    refine ⟨rfl, fun h => ?_⟩
    cases hv : tp.value <;> simp [HValue.zeroed, bufsOf, hv]
  · intro h tp how
    obtain ⟨tg, ty, v, ow⟩ := tp
    subst how
    cases v with
    | scalar n => exact ⟨rfl, rfl⟩
    | ptr p => cases p <;> exact ⟨rfl, rfl⟩
  · intro h tp how hwf hnb
    obtain ⟨tg, ty, v, ow⟩ := tp
    simp only at hnb
    subst how
    cases v with
    | scalar n =>
      exact ⟨h, ⟨tg, ty, .scalar n, true⟩, rfl, rfl, rfl, rfl, rfl,
        by simp [bufsOf], by simp [bufsOf], rfl⟩
    | ptr p =>
      cases p with
      | none =>
        exact ⟨h, ⟨tg, ty, .ptr none, true⟩, rfl, rfl, rfl, rfl, rfl,
          by simp [bufsOf], by simp [bufsOf], rfl⟩
      | some b =>
        by_cases hstr : ty = STRING ∨ ty = WSTRING
        · obtain ⟨s, hg⟩ : ∃ s, h.get b = some (.bytes s) := by
            rcases hstr with rfl | rfl <;>
              rcases hg : h.get b with _ | (s | ps | ps) <;>
                simp [wfTPH, hg] at hwf <;>
              exact ⟨_, rfl⟩
          exact copy_owned_str hstr hg
        · by_cases hsar : ty = STRING_ARRAY ∨ ty = WSTRING_ARRAY
          · obtain ⟨ps, ss, hg, hd⟩ : ∃ ps ss, h.get b = some (.strptrs ps) ∧
                derefAll h ps = some ss := by
              rcases hsar with rfl | rfl <;>
                rcases hg : h.get b with _ | (s | ps | ps) <;>
                  simp [wfTPH, hg] at hwf <;>
                · obtain ⟨ss, hss⟩ := Option.isSome_iff_exists.mp hwf.2
                  exact ⟨_, ss, rfl, hss⟩
            exact copy_owned_strarray hsar hg hd
          · by_cases hiar : isArrayType ty = true
            · obtain ⟨s, hg⟩ : ∃ s, h.get b = some (.bytes s) := by
                have hstrn : ¬(ty = 30 ∨ ty = 31) := by simpa using hstr
                have hsarn : ¬(ty = 4126 ∨ ty = 4127) := by simpa using hsar
                have hnbn : ¬ty = 4354 := by simpa using hnb
                rcases hg : h.get b with _ | (s | ps | ps) <;>
                  simp [wfTPH, hstrn, hsarn, hnbn, hg] at hwf
                exact ⟨_, rfl⟩
              exact copy_owned_flat hstr hsar hnb hiar hg
            · exfalso
              have hstrn : ¬(ty = 30 ∨ ty = 31) := by simpa using hstr
              simp [wfTPH, hstrn, hiar] at hwf

/-- Witness for C8 at concrete inputs: copying an owned STRING propval whose
buffer 0 holds two bytes. -/
theorem propval_copy_move_spec_witness :
    (⟨0x3001001f, 0x1f, .ptr (some 0), true⟩ : TPH).owned = true ∧
    wfTPH [some (.bytes [97, 98])] ⟨0x3001001f, 0x1f, .ptr (some 0), true⟩ = true ∧
    ¬(⟨0x3001001f, 0x1f, .ptr (some 0), true⟩ : TPH).type = BINARY_ARRAY ∧
    ∃ h₂ tp₂,
      copyTPH [some (.bytes [97, 98])] ⟨0x3001001f, 0x1f, .ptr (some 0), true⟩ =
        some (h₂, tp₂) ∧
      tp₂.tag = (⟨0x3001001f, 0x1f, .ptr (some 0), true⟩ : TPH).tag ∧
      tp₂.type = (⟨0x3001001f, 0x1f, .ptr (some 0), true⟩ : TPH).type ∧
      tp₂.owned = true ∧
      readTPH h₂ tp₂ =
        readTPH [some (.bytes [97, 98])] ⟨0x3001001f, 0x1f, .ptr (some 0), true⟩ ∧
      (∀ i ∈ bufsOf h₂ tp₂, ([some (.bytes [97, 98])] : Heap).length ≤ i) ∧
      (∀ i ∈ bufsOf [some (.bytes [97, 98])] ⟨0x3001001f, 0x1f, .ptr (some 0), true⟩,
        i < ([some (.bytes [97, 98])] : Heap).length) ∧
      readTPH (freeTPH h₂ ⟨0x3001001f, 0x1f, .ptr (some 0), true⟩) tp₂ =
        readTPH [some (.bytes [97, 98])] ⟨0x3001001f, 0x1f, .ptr (some 0), true⟩ :=
  ⟨rfl, by decide, by decide,
   propval_copy_move_spec.2.2 [some (.bytes [97, 98])]
     ⟨0x3001001f, 0x1f, .ptr (some 0), true⟩ rfl (by decide) (by decide)⟩

theorem dedupAux_mem (seen l : List (List Nat)) (u : List Nat) :
    u ∈ dedupAux seen l ↔ u ∈ l ∧ u ∉ seen := by
  induction l generalizing seen with
  | nil => simp [dedupAux]
  | cons x xs ih =>
    rw [dedupAux]
    by_cases hx : x ∈ seen
    · rw [if_pos hx, ih]
      constructor
      · rintro ⟨h1, h2⟩
        exact ⟨List.mem_cons_of_mem _ h1, h2⟩
      · rintro ⟨h1, h2⟩
        rcases List.mem_cons.mp h1 with rfl | h1'
        · exact absurd hx h2
        · exact ⟨h1', h2⟩
    · rw [if_neg hx]
      constructor
      · intro h
        rcases List.mem_cons.mp h with rfl | h'
        · exact ⟨List.mem_cons_self _ _, hx⟩
        · obtain ⟨h1, h2⟩ := (ih (x :: seen)).mp h'
          exact ⟨List.mem_cons_of_mem _ h1, fun hc => h2 (List.mem_cons_of_mem _ hc)⟩
      · rintro ⟨h1, h2⟩
        by_cases hux : u = x
        · exact hux ▸ List.mem_cons_self _ _
        · rcases List.mem_cons.mp h1 with rfl | h1'
          · exact absurd rfl hux
          · refine List.mem_cons_of_mem _ ((ih (x :: seen)).mpr ⟨h1', ?_⟩)
            intro hc
            rcases List.mem_cons.mp hc with rfl | hc'
            · exact hux rfl
            · exact h2 hc'

theorem dedupFirst_mem (l : List (List Nat)) (u : List Nat) :
    u ∈ dedupFirst l ↔ u ∈ l := by
  rw [dedupFirst, dedupAux_mem]
  simp

theorem lor_land_self (a b : Nat) : (a ||| b) &&& b = b := by
  apply Nat.eq_of_testBit_eq
  intro i
  simp only [Nat.testBit_land, Nat.testBit_lor]
  cases a.testBit i <;> cases b.testBit i <;> rfl

theorem procMembers_cons_special (R : Nat) (m : Member) (ms : List Member)
    (req : List (List Nat)) (hs : m.special = true) :
    procMembers R (m :: ms) req = procMembers R ms req := by
  simp [procMembers, hs]

theorem procMembers_cons_nonspecial (R : Nat) (m : Member) (ms : List Member)
    (req : List (List Nat)) (hs : ¬m.special = true) :
    procMembers R (m :: ms) req =
      (if (if m.mail ∈ req then m.rights ||| R else m.rights &&& notMask32 R) = m.rights
       then procMembers R ms (req.filter (· ≠ m.mail))
       else (⟨if (if m.mail ∈ req then m.rights ||| R else m.rights &&& notMask32 R) ≠ 0
           then MODIFY_ROW else REMOVE_ROW,
         [.ofU64 PropTag.MEMBERID m.id, .ofU32 PropTag.MEMBERRIGHTS
           (if m.mail ∈ req then m.rights ||| R else m.rights &&& notMask32 R)]⟩ ::
           (procMembers R ms (req.filter (· ≠ m.mail))).1,
         (procMembers R ms (req.filter (· ≠ m.mail))).2)) := by
  simp [procMembers, hs]

theorem procMembers_fst (R : Nat) (ms : List Member) (req : List (List Nat))
    (h : ((ms.filter (fun m => !m.special)).map Member.mail).Nodup) :
    (procMembers R ms req).1 = ms.filterMap (memOp R req) := by
  induction ms generalizing req with
  | nil => simp [procMembers]
  | cons m ms ih =>
    by_cases hs : m.special = true
    · have hcond : ¬((!m.special) = true) := by simp [hs]
      rw [List.filter_cons, if_neg hcond] at h
      rw [procMembers_cons_special R m ms req hs,
        List.filterMap_cons_none (by simp [memOp, hs])]
      exact ih req h
    · have hs' : m.special = false := Bool.eq_false_iff.mpr hs
      have hcond : (!m.special) = true := by rw [hs']; rfl
      rw [List.filter_cons, if_pos hcond, List.map_cons, List.nodup_cons] at h
      obtain ⟨hnotin, hrest⟩ := h
      have ihh := ih (req.filter (· ≠ m.mail)) hrest
      have hcongr : ms.filterMap (memOp R (req.filter (· ≠ m.mail))) =
          ms.filterMap (memOp R req) := by
        apply List.filterMap_congr
        intro x hx
        by_cases hxs : x.special = true
        · simp [memOp, hxs]
        · have hxmail : x.mail ≠ m.mail := by
            intro he
            exact hnotin (List.mem_map.mpr ⟨x, List.mem_filter.mpr
              ⟨hx, by rw [Bool.eq_false_iff.mpr hxs]; rfl⟩, he⟩)
          have hmem : (x.mail ∈ req.filter (· ≠ m.mail)) ↔ x.mail ∈ req := by
            constructor
            · intro hin; exact (List.mem_filter.mp hin).1
            · intro hin
              exact List.mem_filter.mpr ⟨hin, decide_eq_true hxmail⟩
          simp only [memOp, hmem]
      rw [procMembers_cons_nonspecial R m ms req hs]
      by_cases hnr : (if m.mail ∈ req then m.rights ||| R else m.rights &&& notMask32 R)
          = m.rights
      · have hm : memOp R req m = none := by
          unfold memOp
          rw [if_neg hs]
          show (if (if m.mail ∈ req then m.rights ||| R else m.rights &&& notMask32 R)
              = m.rights then none else _) = none
          rw [if_pos hnr]
        rw [if_pos hnr, ihh, hcongr, List.filterMap_cons_none hm]
      · have hm : memOp R req m = some
            (PermissionData.mk
              (if (if m.mail ∈ req then m.rights ||| R else m.rights &&& notMask32 R) ≠ 0
                then MODIFY_ROW else REMOVE_ROW)
              [.ofU64 PropTag.MEMBERID m.id, .ofU32 PropTag.MEMBERRIGHTS
                (if m.mail ∈ req then m.rights ||| R else m.rights &&& notMask32 R)]) := by
          unfold memOp
          rw [if_neg hs]
          show (if (if m.mail ∈ req then m.rights ||| R else m.rights &&& notMask32 R)
              = m.rights then none else some _) = some _
          rw [if_neg hnr]
        rw [if_neg hnr]
        dsimp only
        rw [ihh, hcongr, List.filterMap_cons_some hm]

theorem procMembers_snd (R : Nat) (ms : List Member) (req : List (List Nat)) :
    (procMembers R ms req).2 = req.filter (survives ms) := by
  induction ms generalizing req with
  | nil =>
    have hall : survives ([] : List Member) = fun _ => true := by
      funext u; rfl
    simp [procMembers, hall]
  | cons m ms ih =>
    by_cases hs : m.special = true
    · rw [procMembers_cons_special R m ms req hs, ih]
      apply List.filter_congr
      intro u _
      simp [survives, hs]
    · have hs' : m.special = false := Bool.eq_false_iff.mpr hs
      have hsnd : (procMembers R (m :: ms) req).2 =
          (procMembers R ms (req.filter (· ≠ m.mail))).2 := by
        rw [procMembers_cons_nonspecial R m ms req hs]
        by_cases hnr : (if m.mail ∈ req then m.rights ||| R else m.rights &&& notMask32 R)
            = m.rights
        · rw [if_pos hnr]
        · rw [if_neg hnr]
      rw [hsnd, ih, List.filter_filter]
      apply List.filter_congr
      intro u _
      simp [survives, hs', Bool.and_comm]


theorem opMemberId_memberOp (f i nr : Nat) :
    opMemberId (PermissionData.mk f
      [TaggedPropval.ofU64 PropTag.MEMBERID i,
       TaggedPropval.ofU32 PropTag.MEMBERRIGHTS nr]) = some i := by
  unfold opMemberId
  rw [@List.find?_cons_of_pos _ (fun tp => decide (tp.tag = PropTag.MEMBERID))
      (TaggedPropval.ofU64 PropTag.MEMBERID i) _ (decide_eq_true rfl)]
  rfl

theorem opRights_memberOp (f i nr : Nat) :
    opRights (PermissionData.mk f
      [TaggedPropval.ofU64 PropTag.MEMBERID i,
       TaggedPropval.ofU32 PropTag.MEMBERRIGHTS nr]) = some nr := by
  unfold opRights
  rw [@List.find?_cons_of_neg _ (fun tp => decide (tp.tag = PropTag.MEMBERRIGHTS))
      (TaggedPropval.ofU64 PropTag.MEMBERID i) _
      (fun hc => absurd (of_decide_eq_true hc)
        (fun h => absurd h (by decide : ¬PropTag.MEMBERID = PropTag.MEMBERRIGHTS))),
    @List.find?_cons_of_pos _ (fun tp => decide (tp.tag = PropTag.MEMBERRIGHTS))
      (TaggedPropval.ofU32 PropTag.MEMBERRIGHTS nr) _ (decide_eq_true rfl)]
  rfl

theorem opMemberId_addOp (f : Nat) (u : List Nat) (r : Nat) :
    opMemberId (PermissionData.mk f
      [TaggedPropval.ofStr PropTag.SMTPADDRESS u,
       TaggedPropval.ofU32 PropTag.MEMBERRIGHTS r]) = none := by
  unfold opMemberId
  rw [@List.find?_cons_of_neg _ (fun tp => decide (tp.tag = PropTag.MEMBERID))
      (TaggedPropval.ofStr PropTag.SMTPADDRESS u) _
      (fun hc => absurd (of_decide_eq_true hc)
        (fun h => absurd h (by decide : ¬PropTag.SMTPADDRESS = PropTag.MEMBERID))),
    @List.find?_cons_of_neg _ (fun tp => decide (tp.tag = PropTag.MEMBERID))
      (TaggedPropval.ofU32 PropTag.MEMBERRIGHTS r) _
      (fun hc => absurd (of_decide_eq_true hc)
        (fun h => absurd h (by decide : ¬PropTag.MEMBERRIGHTS = PropTag.MEMBERID)))]
  rfl

theorem opRights_addOp (f : Nat) (u : List Nat) (r : Nat) :
    opRights (PermissionData.mk f
      [TaggedPropval.ofStr PropTag.SMTPADDRESS u,
       TaggedPropval.ofU32 PropTag.MEMBERRIGHTS r]) = some r := by
  unfold opRights
  rw [@List.find?_cons_of_neg _ (fun tp => decide (tp.tag = PropTag.MEMBERRIGHTS))
      (TaggedPropval.ofStr PropTag.SMTPADDRESS u) _
      (fun hc => absurd (of_decide_eq_true hc)
        (fun h => absurd h (by decide : ¬PropTag.SMTPADDRESS = PropTag.MEMBERRIGHTS))),
    @List.find?_cons_of_pos _ (fun tp => decide (tp.tag = PropTag.MEMBERRIGHTS))
      (TaggedPropval.ofU32 PropTag.MEMBERRIGHTS r) _ (decide_eq_true rfl)]
  rfl

theorem opMail_addOp (f : Nat) (u : List Nat) (r : Nat) :
    opMail (PermissionData.mk f
      [TaggedPropval.ofStr PropTag.SMTPADDRESS u,
       TaggedPropval.ofU32 PropTag.MEMBERRIGHTS r]) = some u := by
  unfold opMail
  rw [@List.find?_cons_of_pos _ (fun tp => decide (tp.tag = PropTag.SMTPADDRESS))
      (TaggedPropval.ofStr PropTag.SMTPADDRESS u) _ (decide_eq_true rfl)]
  rfl

theorem memOp_eq_some (R : Nat) (req : List (List Nat)) (m : Member) (p : PermissionData)
    (h : memOp R req m = some p) :
    ¬m.special = true ∧
    (if m.mail ∈ req then m.rights ||| R else m.rights &&& notMask32 R) ≠ m.rights ∧
    p = PermissionData.mk
      (if (if m.mail ∈ req then m.rights ||| R else m.rights &&& notMask32 R) ≠ 0
        then MODIFY_ROW else REMOVE_ROW)
      [.ofU64 PropTag.MEMBERID m.id, .ofU32 PropTag.MEMBERRIGHTS
        (if m.mail ∈ req then m.rights ||| R else m.rights &&& notMask32 R)] := by
  by_cases hs : m.special = true
  · rw [memOp, if_pos hs] at h
    exact absurd h (fun hc => Option.noConfusion hc)
  · refine ⟨hs, ?_⟩
    rw [memOp, if_neg hs] at h
    have h' : (if (if m.mail ∈ req then m.rights ||| R else m.rights &&& notMask32 R) = m.rights
        then none
        else some (PermissionData.mk
          (if (if m.mail ∈ req then m.rights ||| R else m.rights &&& notMask32 R) ≠ 0
            then MODIFY_ROW else REMOVE_ROW)
          [.ofU64 PropTag.MEMBERID m.id, .ofU32 PropTag.MEMBERRIGHTS
            (if m.mail ∈ req then m.rights ||| R else m.rights &&& notMask32 R)])) = some p := h
    by_cases hnr : (if m.mail ∈ req then m.rights ||| R else m.rights &&& notMask32 R) = m.rights
    · rw [if_pos hnr] at h'
      exact absurd h' (fun hc => Option.noConfusion hc)
    · rw [if_neg hnr] at h'
      exact ⟨hnr, (Option.some.inj h').symm⟩

theorem mem_applyOp_of_not_target (members : List Member) (p : PermissionData) (m : Member)
    (hm : m ∈ members) (ht : opMemberId p ≠ some m.id) : m ∈ applyOp members p := by
  unfold applyOp
  split_ifs with h1 h2 h3
  · exact List.mem_filter.mpr ⟨hm, decide_eq_true (fun he => ht he.symm)⟩
  · refine List.mem_map.mpr ⟨m, hm, ?_⟩
    rw [if_neg (fun he => ht he.symm)]
  · exact List.mem_append_left _ hm
  · exact hm

theorem mem_applyOps_of_not_target (members : List Member) (ops : List PermissionData)
    (m : Member) (hm : m ∈ members) (ht : ∀ p ∈ ops, opMemberId p ≠ some m.id) :
    m ∈ applyOps members ops := by
  induction ops generalizing members with
  | nil => exact hm
  | cons p ps ih =>
    exact ih _ (mem_applyOp_of_not_target members p m hm (ht p (List.mem_cons_self _ _)))
      (fun q hq => ht q (List.mem_cons_of_mem _ hq))

theorem not_mem_id_applyOp (x : Nat) (members : List Member) (p : PermissionData)
    (hx : ∀ m' ∈ members, m'.id ≠ x) (hadd : x ≠ 2 ^ 64) :
    ∀ m' ∈ applyOp members p, m'.id ≠ x := by
  intro m' hm'
  unfold applyOp at hm'
  split_ifs at hm' with h1 h2 h3
  · exact hx m' (List.mem_filter.mp hm').1
  · obtain ⟨mm, hmm, rfl⟩ := List.mem_map.mp hm'
    by_cases hc : some mm.id = opMemberId p
    · rw [if_pos hc]
      exact hx mm hmm
    · rw [if_neg hc]
      exact hx mm hmm
  · rcases List.mem_append.mp hm' with h | h
    · exact hx m' h
    · rw [List.mem_singleton.mp h]
      exact fun hc => hadd hc.symm
  · exact hx m' hm'

theorem not_mem_id_applyOps (x : Nat) (members : List Member) (ops : List PermissionData)
    (hx : ∀ m' ∈ members, m'.id ≠ x) (hadd : x ≠ 2 ^ 64) :
    ∀ m' ∈ applyOps members ops, m'.id ≠ x := by
  induction ops generalizing members with
  | nil => exact hx
  | cons p ps ih => exact ih (applyOp members p) (not_mem_id_applyOp x members p hx hadd)

theorem remove_applyOp (members : List Member) (p : PermissionData) (x : Nat)
    (hf : p.flags = REMOVE_ROW) (hid : opMemberId p = some x) :
    ∀ m' ∈ applyOp members p, m'.id ≠ x := by
  intro m' hm'
  unfold applyOp at hm'
  rw [if_pos hf] at hm'
  have hne : some m'.id ≠ opMemberId p := of_decide_eq_true (List.mem_filter.mp hm').2
  rw [hid] at hne
  exact fun he => hne (by rw [he])

theorem modify_applyOp (members : List Member) (p : PermissionData) (m : Member) (nr : Nat)
    (hf : p.flags = MODIFY_ROW) (hid : opMemberId p = some m.id) (hr : opRights p = some nr)
    (hm : m ∈ members) : { m with rights := nr } ∈ applyOp members p := by
  unfold applyOp
  rw [if_neg (show ¬p.flags = REMOVE_ROW from by rw [hf]; decide), if_pos hf]
  refine List.mem_map.mpr ⟨m, hm, ?_⟩
  rw [if_pos (by rw [hid]), hr]
  rfl

theorem add_applyOp (members : List Member) (p : PermissionData) (hf : p.flags = ADD_ROW) :
    ({ mail := (opMail p).getD [], id := 2 ^ 64, rights := (opRights p).getD 0 } : Member)
      ∈ applyOp members p := by
  unfold applyOp
  rw [if_neg (show ¬p.flags = REMOVE_ROW from by rw [hf]; decide),
    if_neg (show ¬p.flags = MODIFY_ROW from by rw [hf]; decide), if_pos hf]
  exact List.mem_append_right _ (List.mem_singleton.mpr rfl)

theorem memOps_not_target (R : Nat) (req : List (List Nat)) (ms : List Member) (x : Nat)
    (h : ∀ y ∈ ms, y.id = x → memOp R req y = none) :
    ∀ p ∈ ms.filterMap (memOp R req), opMemberId p ≠ some x := by
  intro p hp
  obtain ⟨y, hy, hyp⟩ := List.mem_filterMap.mp hp
  obtain ⟨hys, hnr, rfl⟩ := memOp_eq_some R req y p hyp
  rw [opMemberId_memberOp]
  intro hc
  have hyx : y.id = x := by injection hc
  rw [h y hy hyx] at hyp
  exact Option.noConfusion hyp

theorem memOps_decomp (R : Nat) (req : List (List Nat)) (ms : List Member) (m : Member)
    (op : PermissionData) (hm : m ∈ ms) (hnodup : (ms.map Member.id).Nodup)
    (hop : memOp R req m = some op) :
    ∃ l₁ l₂, ms.filterMap (memOp R req) = l₁ ++ op :: l₂ ∧
      (∀ p ∈ l₁, opMemberId p ≠ some m.id) ∧ (∀ p ∈ l₂, opMemberId p ≠ some m.id) := by
  induction ms with
  | nil => cases hm
  | cons y ys ih =>
    rw [List.map_cons, List.nodup_cons] at hnodup
    obtain ⟨hyid, hnodup'⟩ := hnodup
    rcases List.mem_cons.mp hm with rfl | hm'
    · refine ⟨[], ys.filterMap (memOp R req), ?_, by simp, ?_⟩
      · rw [List.filterMap_cons_some hop]
        rfl
      · apply memOps_not_target
        intro y' hy' hid'
        exact absurd (hid' ▸ List.mem_map_of_mem Member.id hy') hyid
    · obtain ⟨l₁, l₂, heq, h₁, h₂⟩ := ih hm' hnodup'
      cases hyo : memOp R req y with
      | none =>
        exact ⟨l₁, l₂, by rw [List.filterMap_cons_none hyo, heq], h₁, h₂⟩
      | some q =>
        refine ⟨q :: l₁, l₂, by rw [List.filterMap_cons_some hyo, heq]; rfl, ?_, h₂⟩
        intro p hp
        rcases List.mem_cons.mp hp with rfl | hp'
        · obtain ⟨_, _, rfl⟩ := memOp_eq_some R req y p hyo
          rw [opMemberId_memberOp]
          intro hc
          have hyx : y.id = m.id := by injection hc
          exact hyid (by rw [hyx]; exact List.mem_map_of_mem Member.id hm')
        · exact h₁ p hp'

theorem addOps_not_target (R : Nat) (l : List (List Nat)) (x : Nat) :
    ∀ p ∈ l.map (fun u => PermissionData.mk ADD_ROW
      [TaggedPropval.ofStr PropTag.SMTPADDRESS u,
       TaggedPropval.ofU32 PropTag.MEMBERRIGHTS R]), opMemberId p ≠ some x := by
  intro p hp
  obtain ⟨u, _, rfl⟩ := List.mem_map.mp hp
  rw [opMemberId_addOp]
  exact fun hc => Option.noConfusion hc

theorem computePermissions_eq (members : List Member) (U : List (List Nat)) (R : Nat)
    (hmails : ((members.filter (fun m => !m.special)).map Member.mail).Nodup) :
    computePermissions members U R =
      members.filterMap (memOp R (dedupFirst U)) ++
      ((dedupFirst U).filter (survives members)).map (fun u =>
        PermissionData.mk ADD_ROW
          [TaggedPropval.ofStr PropTag.SMTPADDRESS u,
           TaggedPropval.ofU32 PropTag.MEMBERRIGHTS R]) := by
  show (procMembers R members (dedupFirst U)).1 ++
    ((procMembers R members (dedupFirst U)).2).map _ = _
  rw [procMembers_fst R members (dedupFirst U) hmails, procMembers_snd]

theorem applyOps_append (members : List Member) (l₁ l₂ : List PermissionData) :
    applyOps members (l₁ ++ l₂) = applyOps (applyOps members l₁) l₂ :=
  List.foldl_append _ _ _ _

theorem memOp_none_special (R : Nat) (req : List (List Nat)) (m : Member)
    (hs : m.special = true) : memOp R req m = none := by
  rw [memOp, if_pos hs]

theorem memOp_none_noop (R : Nat) (req : List (List Nat)) (m : Member)
    (hnr : (if m.mail ∈ req then m.rights ||| R else m.rights &&& notMask32 R) = m.rights) :
    memOp R req m = none := by
  by_cases hs : m.special = true
  · exact memOp_none_special R req m hs
  · rw [memOp, if_neg hs]
    show (if (if m.mail ∈ req then m.rights ||| R else m.rights &&& notMask32 R) = m.rights
      then none else some _) = none
    rw [if_pos hnr]

theorem memOp_some_emit (R : Nat) (req : List (List Nat)) (m : Member)
    (hs : ¬m.special = true)
    (hnr : (if m.mail ∈ req then m.rights ||| R else m.rights &&& notMask32 R) ≠ m.rights) :
    memOp R req m = some (PermissionData.mk
      (if (if m.mail ∈ req then m.rights ||| R else m.rights &&& notMask32 R) ≠ 0
        then MODIFY_ROW else REMOVE_ROW)
      [.ofU64 PropTag.MEMBERID m.id, .ofU32 PropTag.MEMBERRIGHTS
        (if m.mail ∈ req then m.rights ||| R else m.rights &&& notMask32 R)]) := by
  rw [memOp, if_neg hs]
  show (if (if m.mail ∈ req then m.rights ||| R else m.rights &&& notMask32 R) = m.rights
    then none else some _) = some _
  rw [if_neg hnr]

theorem nrExpr_dedup (U : List (List Nat)) (R : Nat) (m : Member) :
    (if m.mail ∈ dedupFirst U then m.rights ||| R else m.rights &&& notMask32 R) =
    (if m.mail ∈ U then m.rights ||| R else m.rights &&& notMask32 R) := by
  by_cases hmem : m.mail ∈ U
  · rw [if_pos ((dedupFirst_mem U m.mail).mpr hmem), if_pos hmem]
  · rw [if_neg (fun hc => hmem ((dedupFirst_mem U m.mail).mp hc)), if_neg hmem]

theorem member_id_unique (members : List Member) (hids : (members.map Member.id).Nodup)
    (m : Member) (hm : m ∈ members) :
    ∀ y ∈ members, y.id = m.id → y = m :=
  fun y hy hyid => List.inj_on_of_nodup_map hids hy hm hyid

theorem ops_not_target_of_none (members : List Member) (U : List (List Nat)) (R x : Nat)
    (hmails : ((members.filter (fun m => !m.special)).map Member.mail).Nodup)
    (hnone : ∀ y ∈ members, y.id = x → memOp R (dedupFirst U) y = none) :
    ∀ p ∈ computePermissions members U R, opMemberId p ≠ some x := by
  intro p hp
  rw [computePermissions_eq members U R hmails] at hp
  rcases List.mem_append.mp hp with h | h
  · exact memOps_not_target R (dedupFirst U) members x hnone p h
  · exact addOps_not_target R _ x p h

theorem applyOps_modified (members : List Member) (U : List (List Nat)) (R : Nat)
    (m : Member) (nr : Nat) (hm : m ∈ members)
    (hids : (members.map Member.id).Nodup)
    (hmails : ((members.filter (fun mm => !mm.special)).map Member.mail).Nodup)
    (hop : memOp R (dedupFirst U) m = some (PermissionData.mk MODIFY_ROW
      [.ofU64 PropTag.MEMBERID m.id, .ofU32 PropTag.MEMBERRIGHTS nr])) :
    { m with rights := nr } ∈ applyOps members (computePermissions members U R) := by
  obtain ⟨l₁, l₂, heq, h₁, h₂⟩ := memOps_decomp R (dedupFirst U) members m _ hm hids hop
  rw [computePermissions_eq members U R hmails, heq, List.append_assoc, applyOps_append]
  show { m with rights := nr } ∈ applyOps (applyOp (applyOps members l₁)
      (PermissionData.mk MODIFY_ROW
        [.ofU64 PropTag.MEMBERID m.id, .ofU32 PropTag.MEMBERRIGHTS nr]))
      (l₂ ++ ((dedupFirst U).filter (survives members)).map (fun u =>
        PermissionData.mk ADD_ROW
          [TaggedPropval.ofStr PropTag.SMTPADDRESS u,
           TaggedPropval.ofU32 PropTag.MEMBERRIGHTS R]))
  apply mem_applyOps_of_not_target
  · exact modify_applyOp _ _ m nr rfl (opMemberId_memberOp _ _ _) (opRights_memberOp _ _ _)
      (mem_applyOps_of_not_target members l₁ m hm h₁)
  · intro q hq
    rcases List.mem_append.mp hq with hql | hqa
    · exact h₂ q hql
    · exact addOps_not_target R _ m.id q hqa

theorem applyOps_removed (members : List Member) (U : List (List Nat)) (R : Nat)
    (m : Member) (nr : Nat) (hm : m ∈ members)
    (hids : (members.map Member.id).Nodup)
    (hmails : ((members.filter (fun mm => !mm.special)).map Member.mail).Nodup)
    (hbound : ∀ mm ∈ members, mm.id < 2 ^ 64)
    (hop : memOp R (dedupFirst U) m = some (PermissionData.mk REMOVE_ROW
      [.ofU64 PropTag.MEMBERID m.id, .ofU32 PropTag.MEMBERRIGHTS nr])) :
    ∀ m' ∈ applyOps members (computePermissions members U R), m'.id ≠ m.id := by
  obtain ⟨l₁, l₂, heq, h₁, h₂⟩ := memOps_decomp R (dedupFirst U) members m _ hm hids hop
  rw [computePermissions_eq members U R hmails, heq, List.append_assoc, applyOps_append]
  show ∀ m' ∈ applyOps (applyOp (applyOps members l₁)
      (PermissionData.mk REMOVE_ROW
        [.ofU64 PropTag.MEMBERID m.id, .ofU32 PropTag.MEMBERRIGHTS nr]))
      (l₂ ++ ((dedupFirst U).filter (survives members)).map (fun u =>
        PermissionData.mk ADD_ROW
          [TaggedPropval.ofStr PropTag.SMTPADDRESS u,
           TaggedPropval.ofU32 PropTag.MEMBERRIGHTS R])), m'.id ≠ m.id
  exact not_mem_id_applyOps m.id _ _
    (remove_applyOp (applyOps members l₁) _ m.id rfl (opMemberId_memberOp _ _ _))
    (Nat.ne_of_lt (hbound m hm))

theorem eq_zero_of_lor_eq_zero (a b : Nat) (h : a ||| b = 0) : a = 0 := by
  apply Nat.eq_of_testBit_eq
  intro i
  rw [Nat.zero_testBit]
  have hb := congrArg (fun n => n.testBit i) h
  simp only [Nat.testBit_lor, Nat.zero_testBit] at hb
  exact (Bool.or_eq_false_iff.mp hb).1

theorem applyOps_requested (members : List Member) (U : List (List Nat)) (R : Nat)
    (hids : (members.map Member.id).Nodup)
    (hmails : ((members.filter (fun m => !m.special)).map Member.mail).Nodup) :
    ∀ u ∈ U, ∃ m' ∈ applyOps members (computePermissions members U R),
      m'.mail = u ∧ m'.rights &&& R = R := by
  intro u hu
  by_cases hex : ∃ m ∈ members, ¬m.special = true ∧ m.mail = u
  · obtain ⟨m, hmmem, hms, hmail⟩ := hex
    have hCU : (if m.mail ∈ dedupFirst U then m.rights ||| R else m.rights &&& notMask32 R)
        = m.rights ||| R := by
      rw [nrExpr_dedup, if_pos (by rw [hmail]; exact hu)]
    by_cases hnr : m.rights ||| R = m.rights
    · have hnone : ∀ y ∈ members, y.id = m.id → memOp R (dedupFirst U) y = none := by
        intro y hy hyid
        have hym := member_id_unique members hids m hmmem y hy hyid
        subst hym
        exact memOp_none_noop R _ y (by rw [hCU]; exact hnr)
      refine ⟨m, mem_applyOps_of_not_target members _ m hmmem
        (ops_not_target_of_none members U R m.id hmails hnone), hmail, ?_⟩
      rw [← hnr]
      exact lor_land_self m.rights R
    · have hnz : m.rights ||| R ≠ 0 := by
        intro h0
        exact hnr (by rw [h0, eq_zero_of_lor_eq_zero m.rights R h0])
      have hop := memOp_some_emit R (dedupFirst U) m hms (by rw [hCU]; exact hnr)
      rw [hCU, if_pos hnz] at hop
      refine ⟨{ m with rights := m.rights ||| R },
        applyOps_modified members U R m (m.rights ||| R) hmmem hids hmails hop, hmail, ?_⟩
      exact lor_land_self m.rights R
  · have hureq : u ∈ dedupFirst U := (dedupFirst_mem U u).mpr hu
    have hsurv : survives members u = true := by
      rw [survives, List.all_eq_true]
      intro m hm
      by_cases hms : m.special = true
      · rw [hms]
        rfl
      · rw [Bool.eq_false_iff.mpr hms, Bool.false_or]
        exact decide_eq_true (fun he => hex ⟨m, hm, hms, he.symm⟩)
    have haddmem : (PermissionData.mk ADD_ROW
        [TaggedPropval.ofStr PropTag.SMTPADDRESS u,
         TaggedPropval.ofU32 PropTag.MEMBERRIGHTS R]) ∈
        ((dedupFirst U).filter (survives members)).map (fun v =>
          PermissionData.mk ADD_ROW
            [TaggedPropval.ofStr PropTag.SMTPADDRESS v,
             TaggedPropval.ofU32 PropTag.MEMBERRIGHTS R]) :=
      List.mem_map_of_mem _ (List.mem_filter.mpr ⟨hureq, hsurv⟩)
    obtain ⟨a₁, a₂, haeq⟩ := List.append_of_mem haddmem
    rw [computePermissions_eq members U R hmails, haeq]
    have hsplit : members.filterMap (memOp R (dedupFirst U)) ++ (a₁ ++
        PermissionData.mk ADD_ROW
          [TaggedPropval.ofStr PropTag.SMTPADDRESS u,
           TaggedPropval.ofU32 PropTag.MEMBERRIGHTS R] :: a₂) =
        (members.filterMap (memOp R (dedupFirst U)) ++ a₁) ++
        PermissionData.mk ADD_ROW
          [TaggedPropval.ofStr PropTag.SMTPADDRESS u,
           TaggedPropval.ofU32 PropTag.MEMBERRIGHTS R] :: a₂ :=
      (List.append_assoc _ _ _).symm
    rw [hsplit, applyOps_append]
    refine ⟨{ mail := u, id := 2 ^ 64, rights := R }, ?_, rfl, ?_⟩
    · show ({ mail := u, id := 2 ^ 64, rights := R } : Member) ∈ applyOps
        (applyOp (applyOps members (members.filterMap (memOp R (dedupFirst U)) ++ a₁))
          (PermissionData.mk ADD_ROW
            [TaggedPropval.ofStr PropTag.SMTPADDRESS u,
             TaggedPropval.ofU32 PropTag.MEMBERRIGHTS R])) a₂
      apply mem_applyOps_of_not_target
      · have hadd := add_applyOp
          (applyOps members (members.filterMap (memOp R (dedupFirst U)) ++ a₁))
          (PermissionData.mk ADD_ROW
            [TaggedPropval.ofStr PropTag.SMTPADDRESS u,
             TaggedPropval.ofU32 PropTag.MEMBERRIGHTS R]) rfl
        rw [opMail_addOp, opRights_addOp] at hadd
        simp only [Option.getD_some] at hadd
        exact hadd
      · intro q hq
        have hqm : q ∈ ((dedupFirst U).filter (survives members)).map (fun v =>
            PermissionData.mk ADD_ROW
              [TaggedPropval.ofStr PropTag.SMTPADDRESS v,
               TaggedPropval.ofU32 PropTag.MEMBERRIGHTS R]) := by
          rw [haeq]
          exact List.mem_append_right _ (List.mem_cons_of_mem _ hq)
        exact addOps_not_target R _ _ q hqm
    · show R &&& R = R
      apply Nat.eq_of_testBit_eq
      intro i
      simp only [Nat.testBit_land]
      cases R.testBit i <;> rfl

theorem applyOps_unrequested (members : List Member) (U : List (List Nat)) (R : Nat)
    (hids : (members.map Member.id).Nodup)
    (hmails : ((members.filter (fun m => !m.special)).map Member.mail).Nodup)
    (hbound : ∀ m ∈ members, m.id < 2 ^ 64) :
    ∀ m ∈ members, ¬m.special = true → m.mail ∉ U →
      (if m.rights &&& notMask32 R = 0 ∧ m.rights ≠ 0
       then ∀ m' ∈ applyOps members (computePermissions members U R), m'.id ≠ m.id
       else ∃ m' ∈ applyOps members (computePermissions members U R),
         m'.id = m.id ∧ m'.mail = m.mail ∧ m'.rights = m.rights &&& notMask32 R) := by
  intro m hm hms hmu
  have hCU : (if m.mail ∈ dedupFirst U then m.rights ||| R else m.rights &&& notMask32 R)
      = m.rights &&& notMask32 R := by
    rw [nrExpr_dedup, if_neg hmu]
  by_cases hcond : m.rights &&& notMask32 R = 0 ∧ m.rights ≠ 0
  · rw [if_pos hcond]
    have hnr : m.rights &&& notMask32 R ≠ m.rights := by
      rw [hcond.1]
      exact fun he => hcond.2 he.symm
    have hop := memOp_some_emit R (dedupFirst U) m hms (by rw [hCU]; exact hnr)
    rw [hCU] at hop
    have hnz : ¬(m.rights &&& notMask32 R ≠ 0) := fun hc => hc hcond.1
    rw [if_neg hnz] at hop
    exact applyOps_removed members U R m _ hm hids hmails hbound hop
  · rw [if_neg hcond]
    by_cases hnr : m.rights &&& notMask32 R = m.rights
    · have hnone : ∀ y ∈ members, y.id = m.id → memOp R (dedupFirst U) y = none := by
        intro y hy hyid
        have hym := member_id_unique members hids m hm y hy hyid
        subst hym
        exact memOp_none_noop R _ y (by rw [hCU]; exact hnr)
      exact ⟨m, mem_applyOps_of_not_target members _ m hm
        (ops_not_target_of_none members U R m.id hmails hnone), rfl, rfl, hnr.symm⟩
    · have hnz : m.rights &&& notMask32 R ≠ 0 := by
        intro h0
        by_cases hold : m.rights = 0
        · exact hnr (by rw [h0, hold])
        · exact hcond ⟨h0, hold⟩
      have hop := memOp_some_emit R (dedupFirst U) m hms (by rw [hCU]; exact hnr)
      rw [hCU, if_pos hnz] at hop
      exact ⟨{ m with rights := m.rights &&& notMask32 R },
        applyOps_modified members U R m _ hm hids hmails hop, rfl, rfl, rfl⟩

theorem applyOps_special_untouched (members : List Member) (U : List (List Nat)) (R : Nat)
    (hmails : ((members.filter (fun m => !m.special)).map Member.mail).Nodup) :
    ∀ m ∈ members, m.special = true →
      m ∈ applyOps members (computePermissions members U R) ∧
      ∀ p ∈ computePermissions members U R, opMemberId p ≠ some m.id := by
  intro m hm hs
  have hnone : ∀ y ∈ members, y.id = m.id → memOp R (dedupFirst U) y = none := by
    intro y hy hyid
    have hys : y.special = true := by
      rw [Member.special] at hs ⊢
      rw [hyid]
      exact hs
    exact memOp_none_special R _ y hys
  have ht := ops_not_target_of_none members U R m.id hmails hnone
  exact ⟨mem_applyOps_of_not_target members _ m hm ht, ht⟩

theorem computePermissions_noop (members : List Member) (U : List (List Nat)) (R : Nat)
    (hids : (members.map Member.id).Nodup)
    (hmails : ((members.filter (fun m => !m.special)).map Member.mail).Nodup) :
    ∀ m ∈ members, ¬m.special = true →
      (if m.mail ∈ U then m.rights ||| R else m.rights &&& notMask32 R) = m.rights →
      ∀ p ∈ computePermissions members U R, opMemberId p ≠ some m.id := by
  intro m hm hs hnr
  apply ops_not_target_of_none members U R m.id hmails
  intro y hy hyid
  have hym := member_id_unique members hids m hm y hy hyid
  subst hym
  exact memOp_none_noop R _ y (by rw [nrExpr_dedup]; exact hnr)

theorem setFolderMembers_run (homedir : List Nat) (folderId : Nat) (U : List (List Nat))
    (R t rc : Nat) (rows : List (List TaggedPropval)) (o : List (Option Resp)) (tr : List Req) :
    setFolderMembers homedir folderId U R
      { pending := some (.table t rc) :: some (.entries rows) :: some .ok :: some .ok :: o,
        trace := tr } =
      (some (computePermissions (membersFromTable rows) U R).length,
       { pending := if (computePermissions (membersFromTable rows) U R).length ≠ 0
           then o else some .ok :: o,
         trace := (tr ++
           [.loadPermissionTable homedir folderId 0,
            .queryTable homedir [] 0 t memberProptags 0 rc,
            .unloadTable homedir t]) ++
           (if (computePermissions (membersFromTable rows) U R).length ≠ 0
            then [.updateFolderPermission homedir folderId false
              (computePermissions (membersFromTable rows) U R)] else []) }) := by
  by_cases hlen : (computePermissions (membersFromTable rows) U R).length ≠ 0
  · simp [setFolderMembers, getFolderMemberList, sendTable, sendEntries, sendEmpty, sendQ,
      asTable, asEntries, Bind.bind, Pure.pure, Monad.toBind, hlen]
  · simp [setFolderMembers, getFolderMemberList, sendTable, sendEntries, sendEmpty, sendQ,
      asTable, asEntries, Bind.bind, Pure.pure, Monad.toBind, hlen]

/-- **C5 (corrected).** `setFolderMembers(homedir, folderId, U, R)` fetches
the member list, computes the permission diff, and sends it as a single
`UpdateFolderPermission` batch (no request at all when the diff is empty),
returning the number of operations.  Applying the batch to the member list
(server modelled from the spec): every `u ∈ U` is afterwards present with
rights a superset of `R`; every non-special member not in `U` gets
`rights = old & ~R`, but is removed if and only if that result is 0 AND the
old rights were non-zero (when `old & ~R = old`, e.g. for a rights-0 member,
no operation is emitted and the member persists — correcting the claim's
unconditional "removed iff the result is 0"); special members (id 0 or
`2^64-1`) are never touched by any operation; a member whose new rights
equal its old rights produces no operation. -/
theorem setFolderMembers_permission_diff
    (homedir : List Nat) (folderId : Nat) (U : List (List Nat)) (R : Nat)
    (t rc : Nat) (rows : List (List TaggedPropval)) (o : List (Option Resp)) (tr : List Req)
    (members : List Member) (hm : members = membersFromTable rows)
    (ops : List PermissionData) (hops : ops = computePermissions members U R)
    (final : List Member) (hfinal : final = applyOps members ops)
    (hids : (members.map Member.id).Nodup)
    (hmails : ((members.filter (fun m => !m.special)).map Member.mail).Nodup)
    (hbound : ∀ m ∈ members, m.id < 2 ^ 64) :
    (∀ u ∈ U, ∃ m' ∈ final, m'.mail = u ∧ m'.rights &&& R = R) ∧
    (∀ m ∈ members, ¬m.special = true → m.mail ∉ U →
      (if m.rights &&& notMask32 R = 0 ∧ m.rights ≠ 0
       then ∀ m' ∈ final, m'.id ≠ m.id
       else ∃ m' ∈ final, m'.id = m.id ∧ m'.mail = m.mail ∧
         m'.rights = m.rights &&& notMask32 R)) ∧
    (∀ m ∈ members, m.special = true →
      m ∈ final ∧ ∀ p ∈ ops, opMemberId p ≠ some m.id) ∧
    (∀ m ∈ members, ¬m.special = true →
      (if m.mail ∈ U then m.rights ||| R else m.rights &&& notMask32 R) = m.rights →
      ∀ p ∈ ops, opMemberId p ≠ some m.id) ∧
    (setFolderMembers homedir folderId U R
        { pending := some (.table t rc) :: some (.entries rows) :: some .ok :: some .ok :: o,
          trace := tr } =
      (some ops.length,
       { pending := if ops.length ≠ 0 then o else some .ok :: o,
         trace := (tr ++
           [.loadPermissionTable homedir folderId 0,
            .queryTable homedir [] 0 t memberProptags 0 rc,
            .unloadTable homedir t]) ++
           (if ops.length ≠ 0 then [.updateFolderPermission homedir folderId false ops]
            else []) })) := by
  subst hfinal
  subst hops
  subst hm
  exact ⟨applyOps_requested _ U R hids hmails,
    applyOps_unrequested _ U R hids hmails hbound,
    applyOps_special_untouched _ U R hmails,
    computePermissions_noop _ U R hids hmails,
    setFolderMembers_run homedir folderId U R t rc rows o tr⟩

/-- Counterexample to C5's removal clause: a non-special member (id 5) with
rights already 0 and not among the requested usernames has
`old & ~R = 0 & ~1 = 0`, so the claim demands its removal; but the code
compares `newrights == member.rights` first (src/queries.cpp:374) and emits
no operation at all — `computePermissions` is empty, no
`UpdateFolderPermission` is sent, and the member persists unchanged. -/
theorem setFolderMembers_removal_counterexample :
    ¬(Member.mk [] [99] 5 0).special = true ∧
    (Member.mk [] [99] 5 0).rights &&& notMask32 1 = 0 ∧
    computePermissions [Member.mk [] [99] 5 0] [] 1 = [] ∧
    applyOps [Member.mk [] [99] 5 0] (computePermissions [Member.mk [] [99] 5 0] [] 1) =
      [Member.mk [] [99] 5 0] := by
  decide

theorem setFolderMembers_permission_diff_witness :
    (((membersFromTable [sampleMemberRow]).map Member.id).Nodup ∧
     (((membersFromTable [sampleMemberRow]).filter (fun m => !m.special)).map Member.mail).Nodup ∧
     (∀ m ∈ membersFromTable [sampleMemberRow], m.id < 2 ^ 64)) ∧
    (∀ u ∈ [[97]], ∃ m' ∈ applyOps (membersFromTable [sampleMemberRow]) (computePermissions (membersFromTable [sampleMemberRow]) [[97]] 2), m'.mail = u ∧ m'.rights &&& 2 = 2) ∧
    (∀ m ∈ membersFromTable [sampleMemberRow], ¬m.special = true → m.mail ∉ [[97]] →
      (if m.rights &&& notMask32 2 = 0 ∧ m.rights ≠ 0
       then ∀ m' ∈ applyOps (membersFromTable [sampleMemberRow]) (computePermissions (membersFromTable [sampleMemberRow]) [[97]] 2), m'.id ≠ m.id
       else ∃ m' ∈ applyOps (membersFromTable [sampleMemberRow]) (computePermissions (membersFromTable [sampleMemberRow]) [[97]] 2), m'.id = m.id ∧ m'.mail = m.mail ∧
         m'.rights = m.rights &&& notMask32 2)) ∧
    (∀ m ∈ membersFromTable [sampleMemberRow], m.special = true →
      m ∈ applyOps (membersFromTable [sampleMemberRow]) (computePermissions (membersFromTable [sampleMemberRow]) [[97]] 2) ∧ ∀ p ∈ computePermissions (membersFromTable [sampleMemberRow]) [[97]] 2, opMemberId p ≠ some m.id) ∧
    (∀ m ∈ membersFromTable [sampleMemberRow], ¬m.special = true →
      (if m.mail ∈ [[97]] then m.rights ||| 2 else m.rights &&& notMask32 2) = m.rights →
      ∀ p ∈ computePermissions (membersFromTable [sampleMemberRow]) [[97]] 2, opMemberId p ≠ some m.id) ∧
    (setFolderMembers [] 3 [[97]] 2
        { pending := some (.table 7 1) :: some (.entries [sampleMemberRow]) ::
            some .ok :: some .ok :: [],
          trace := [] } =
      (some (computePermissions (membersFromTable [sampleMemberRow]) [[97]] 2).length,
       { pending := if (computePermissions (membersFromTable [sampleMemberRow]) [[97]] 2).length ≠ 0 then [] else some .ok :: [],
         trace := ([] ++
           [.loadPermissionTable [] 3 0,
            .queryTable [] [] 0 7 memberProptags 0 1,
            .unloadTable [] 7]) ++
           (if (computePermissions (membersFromTable [sampleMemberRow]) [[97]] 2).length ≠ 0
            then [.updateFolderPermission [] 3 false (computePermissions (membersFromTable [sampleMemberRow]) [[97]] 2)]
            else []) })) :=
  ⟨⟨by decide, by decide, by decide⟩,
   setFolderMembers_permission_diff [] 3 [[97]] 2 7 1 [sampleMemberRow] [] []
     (membersFromTable [sampleMemberRow]) rfl
     (computePermissions (membersFromTable [sampleMemberRow]) [[97]] 2) rfl
     (applyOps (membersFromTable [sampleMemberRow]) (computePermissions (membersFromTable [sampleMemberRow]) [[97]] 2)) rfl
     (by decide) (by decide) (by decide)⟩

end Exmdbpp
